import Mathlib

/-!
Sensor registry: the generic reading list, the two sensor kinds, the sensor name
and the registry.

A shallow embedding of `include/Nodo.h`, `include/ListaSensor.h`,
`src/SensorBase.cpp`, `src/SensorTemperatura.cpp`, `src/SensorPresion.cpp` and
the class `ListaGestion` of `src/main.cpp`.

Modelling conventions

* `Nodo<T>* cabeza` is a null-terminated, acyclic chain of heap nodes, each
  holding a `dato` and a `siguiente` pointer.  Such a chain is a `List T`:
  `nullptr` is `[]` and a node with datum `d` whose `siguiente` is the chain
  `r` is `d :: r`.
* `int tamaño` is stored next to the chain and is updated separately by every
  operation, exactly as in the source; it is *not* computed from the chain.
  (The letter `ñ` is not an identifier character, so the field is `tamano`.)
  The counter is an `Int`: it only ever moves by one per node inserted or
  removed, so it cannot leave the `int` range before the chain holds `2^31`
  nodes.
* The template parameter `T` needs `==`, `!=`, `<`, `+=`, `/`, `T{}` and
  `static_cast<T>(int)`.  All of them are taken from a record `Numerico T`, so
  that each instantiation brings its own comparisons and arithmetic; `a != b`
  is the negation of `a == b`, as it is for `int` and `float`.  Nothing is
  assumed about the comparisons: `entero32` is `int`, and `flotante32` is
  `float` with its NaN, infinities, signed zeros and rounding.
* A mutating member function returns its result together with the new state.
* Console output is not modelled, except that the outcome reported by
  `procesarLectura`, `ejecutarProcesamientoPolimorfico` and
  `mostrarTodosSensores` is returned as a value.
* A `char` buffer and the memory at a `const char*` are a `List Char`; the C
  string in it is read by `leerCadena`.  The member `nombre` of a sensor is the
  whole buffer `char nombre[50]`.
* A `SensorBase*` held by the registry points to an object of one of the two
  subclasses, owned by its node; the registry is the list of these objects in
  chain order.
* To speak about which nodes a list object owns, the member functions of
  `ListaSensor<T>` that allocate or free nodes are given a second time on an
  explicit memory of nodes (`Memoria`), and are shown there to compute what
  the functions on `List T` compute.
-/

namespace Sensores

/-! ## Arithmetic required of `T` -/

/-- Arithmetic that `ListaSensor<T>` uses from its element type. -/
structure Numerico (T : Type) where
  /-- Value-initialisation `T{}`. -/
  cero : T
  /-- Addition, as used by `suma += actual->dato`. -/
  suma : T → T → T
  /-- Division, as used by `suma / static_cast<T>(tamaño)`. -/
  divide : T → T → T
  /-- Conversion `static_cast<T>(tamaño)` from the `int` counter. -/
  deEntero : Int → T
  /-- Test `a == b`. -/
  igual : T → T → Bool
  /-- Test `a < b`. -/
  menor : T → T → Bool

/-- Reduction of an integer to the 32-bit two's complement range. -/
def envolver32 (x : Int) : Int := (x + 2147483648) % 4294967296 - 2147483648

/-- Instantiation `T = int`: 32-bit two's complement addition, division truncating toward zero. -/
def entero32 : Numerico Int where
  cero := 0
  suma a b := envolver32 (a + b)
  divide a b := envolver32 (Int.tdiv a b)
  deEntero n := n
  igual a b := decide (a = b)
  menor a b := decide (a < b)

/-- Exact rational arithmetic, without rounding and without NaN.  It is not the
type `float`, which is `flotante32` below; the two agree wherever every operand
and every intermediate result is exactly representable in binary floating point. -/
def racional : Numerico ℚ where
  cero := 0
  suma a b := a + b
  divide a b := a / b
  deEntero n := (n : ℚ)
  igual a b := decide (a = b)
  menor a b := decide (a < b)

/-! ## The type `float` -/

/-- A value of the type `float` (IEEE 754 binary32): not a number, an infinity, or
a finite value given by its sign and its magnitude counted in units of `2^(-149)`,
the smallest positive `float`.  The two zeros are `finito false 0` and
`finito true 0`. -/
inductive Flotante where
  | nan : Flotante
  | infinito (negativo : Bool) : Flotante
  | finito (negativo : Bool) (unidades : Nat) : Flotante
deriving DecidableEq

/-- The number of units in the value 1: `2^149`. -/
def unidadesDeUno : Nat := 713623846352979940529142984724747568191373312

/-- The number of units from which a magnitude is beyond every finite `float`:
`2^277`, the value `2^128`. -/
def unidadesDeInfinito : Nat :=
  242833611528216133864932738352939863330300854881517440156476551217363035650651062272

/-- The power of two by which a magnitude of `n` units has to be divided to fall
below `2^24`: 1 when `n < 2^24`.  The first argument bounds the number of
halvings. -/
def escalaDe : Nat → Nat → Nat
  | 0, _ => 1
  | pasos + 1, n => if n < 16777216 then 1 else 2 * escalaDe pasos (n / 2)

/-- The quotient `p / q` rounded to the nearest number with 24 significant bits,
ties to the even one; `p / q` and the result are counted in units of `2^(-149)`. -/
def redondear (p q : Nat) : Nat :=
  if 2 * (p % (q * escalaDe 512 (p / q))) < q * escalaDe 512 (p / q) then
    p / (q * escalaDe 512 (p / q)) * escalaDe 512 (p / q)
  else if q * escalaDe 512 (p / q) < 2 * (p % (q * escalaDe 512 (p / q))) then
    (p / (q * escalaDe 512 (p / q)) + 1) * escalaDe 512 (p / q)
  else if p / (q * escalaDe 512 (p / q)) % 2 = 0 then
    p / (q * escalaDe 512 (p / q)) * escalaDe 512 (p / q)
  else (p / (q * escalaDe 512 (p / q)) + 1) * escalaDe 512 (p / q)

/-- The `float` with the given sign and rounded magnitude: an infinity from
`2^128` on. -/
def Flotante.deUnidades (negativo : Bool) (unidades : Nat) : Flotante :=
  if unidadesDeInfinito ≤ unidades then .infinito negativo else .finito negativo unidades

/-- The finite value as a signed number of units. -/
def Flotante.conSigno (negativo : Bool) (unidades : Nat) : Int :=
  if negativo then -(unidades : Int) else (unidades : Int)

/-- Position of a `float` other than NaN in the order of `<`: the signed number
of units, the infinities at the first magnitude beyond every finite value. -/
def Flotante.clave : Flotante → Int
  | .nan => 0
  | .infinito false => (unidadesDeInfinito : Int)
  | .infinito true => -(unidadesDeInfinito : Int)
  | .finito negativo unidades => Flotante.conSigno negativo unidades

/-- Test `a == b` on `float`: false when either side is NaN. -/
def Flotante.igual : Flotante → Flotante → Bool
  | .nan, _ => false
  | _, .nan => false
  | a, b => decide (a.clave = b.clave)

/-- Test `a < b` on `float`: false when either side is NaN. -/
def Flotante.menor : Flotante → Flotante → Bool
  | .nan, _ => false
  | _, .nan => false
  | a, b => decide (a.clave < b.clave)

/-- Sum `a + b` on `float`, rounded to nearest. -/
def Flotante.suma : Flotante → Flotante → Flotante
  | .nan, _ => .nan
  | _, .nan => .nan
  | .infinito s, .infinito t => if s = t then .infinito s else .nan
  | .infinito s, .finito _ _ => .infinito s
  | .finito _ _, .infinito t => .infinito t
  | .finito s a, .finito t b =>
    if Flotante.conSigno s a + Flotante.conSigno t b = 0 then .finito (s && t) 0
    else
      Flotante.deUnidades (decide (Flotante.conSigno s a + Flotante.conSigno t b < 0))
        (redondear (Flotante.conSigno s a + Flotante.conSigno t b).natAbs 1)

/-- Quotient `a / b` on `float`, rounded to nearest. -/
def Flotante.divide : Flotante → Flotante → Flotante
  | .nan, _ => .nan
  | _, .nan => .nan
  | .infinito _, .infinito _ => .nan
  | .infinito s, .finito t _ => .infinito (xor s t)
  | .finito s _, .infinito t => .finito (xor s t) 0
  | .finito s a, .finito t b =>
    if b = 0 then (if a = 0 then .nan else .infinito (xor s t))
    else Flotante.deUnidades (xor s t) (redondear (a * unidadesDeUno) b)

/-- Conversion `static_cast<float>(n)` of an `int`, rounded to nearest. -/
def Flotante.deEntero (n : Int) : Flotante :=
  .finito (decide (n < 0)) (redondear (n.natAbs * unidadesDeUno) 1)

/-- Instantiation `T = float`. -/
def flotante32 : Numerico Flotante where
  cero := .finito false 0
  suma := Flotante.suma
  divide := Flotante.divide
  deEntero := Flotante.deEntero
  igual := Flotante.igual
  menor := Flotante.menor

/-! ## `ListaSensor<T>` -/

/-- The list object: head pointer and stored element counter. -/
structure ListaSensor (T : Type) where
  cabeza : List T
  tamano : Int
deriving DecidableEq

variable {T : Type}

/-- Default constructor `ListaSensor()`: `cabeza(nullptr), tamaño(0)`. -/
def ListaSensor.nueva : ListaSensor T := ⟨[], 0⟩

/-- Loop of `insertar` started at the node `actual` (datum `d`, followed by the
chain `actual->siguiente`): advance while `actual->siguiente != nullptr`, then link the new node.
The result is the chain starting at `actual`. -/
def enlazarAlFinal (d : T) : List T → T → List T
  | [], valor => [d, valor]
  | s :: resto, valor => d :: enlazarAlFinal s resto valor

/-- Member `insertar(valor)`. -/
def ListaSensor.insertar (l : ListaSensor T) (valor : T) : ListaSensor T :=
  match l.cabeza with
  | [] => ⟨[valor], l.tamano + 1⟩
  | d :: resto => ⟨enlazarAlFinal d resto valor, l.tamano + 1⟩

/-- Loop of `buscar` from the node pointer `actual`. -/
def buscarDesde (ops : Numerico T) (valor : T) : List T → Bool
  | [] => false
  | d :: resto => if ops.igual d valor then true else buscarDesde ops valor resto

/-- Member `buscar(valor)`. -/
def ListaSensor.buscar (ops : Numerico T) (l : ListaSensor T) (valor : T) : Bool :=
  buscarDesde ops valor l.cabeza

/-- Second part of `eliminar`, on the chain `actual->siguiente`: skip nodes while
`actual->siguiente != nullptr && actual->siguiente->dato != valor`; if a node is
left, unlink it.  `none` means the loop ran off the end (nothing unlinked);
`some r` is the new chain hanging from the starting node. -/
def eliminarTras (ops : Numerico T) (valor : T) : List T → Option (List T)
  | [] => none
  | d :: resto =>
    if !ops.igual d valor then (eliminarTras ops valor resto).map (fun r => d :: r)
    else some resto

/-- Member `eliminar(valor)`: the returned flag and the new state. -/
def ListaSensor.eliminar (ops : Numerico T) (l : ListaSensor T) (valor : T) :
    Bool × ListaSensor T :=
  match l.cabeza with
  | [] => (false, l)
  | d :: resto =>
    if ops.igual d valor then (true, ⟨resto, l.tamano - 1⟩)
    else
      match eliminarTras ops valor resto with
      | some r => (true, ⟨d :: r, l.tamano - 1⟩)
      | none => (false, l)

/-- Member `obtenerTamaño()`. -/
def ListaSensor.obtenerTamano (l : ListaSensor T) : Int := l.tamano

/-- Member `estaVacia()`: `cabeza == nullptr`. -/
def ListaSensor.estaVacia (l : ListaSensor T) : Bool :=
  match l.cabeza with
  | [] => true
  | _ :: _ => false

/-- Summation loop of `calcularPromedio` with accumulator `suma`. -/
def sumarDesde (ops : Numerico T) (suma : T) : List T → T
  | [] => suma
  | d :: resto => sumarDesde ops (ops.suma suma d) resto

/-- Member `calcularPromedio()`. -/
def ListaSensor.calcularPromedio (ops : Numerico T) (l : ListaSensor T) : T :=
  if l.estaVacia then ops.cero
  else ops.divide (sumarDesde ops ops.cero l.cabeza) (ops.deEntero l.tamano)

/-- Scan loop of `eliminarMinimo` with the running `minimo`. -/
def buscarMinimo (ops : Numerico T) (minimo : T) : List T → T
  | [] => minimo
  | d :: resto => buscarMinimo ops (if ops.menor d minimo then d else minimo) resto

/-- Member `eliminarMinimo()`: the returned value and the new state.  The flag
returned by the inner `eliminar(minimo)` is discarded, as in the source. -/
def ListaSensor.eliminarMinimo (ops : Numerico T) (l : ListaSensor T) :
    T × ListaSensor T :=
  match l.cabeza with
  | [] => (ops.cero, l)
  | d :: resto =>
    let minimo := buscarMinimo ops d resto
    (minimo, (l.eliminar ops minimo).2)

/-- Loop of `limpiar`: pop the head node until `cabeza == nullptr`. -/
def liberarDesde : List T → List T
  | [] => []
  | _ :: resto => liberarDesde resto

/-- Member `limpiar()`. -/
def ListaSensor.limpiar (l : ListaSensor T) : ListaSensor T :=
  ⟨liberarDesde l.cabeza, 0⟩

/-- Loop of `copiar` from the pointer `actual` into the receiving list. -/
def copiarDesde (l : ListaSensor T) : List T → ListaSensor T
  | [] => l
  | d :: resto => copiarDesde (l.insertar d) resto

/-- Private member `copiar(otra)`. -/
def ListaSensor.copiar (l otra : ListaSensor T) : ListaSensor T :=
  copiarDesde l otra.cabeza

/-- Copy constructor `ListaSensor(const ListaSensor& otra)`. -/
def ListaSensor.copia (otra : ListaSensor T) : ListaSensor T :=
  ListaSensor.copiar ⟨[], 0⟩ otra

/-- Assignment `operator=` where `this != &otra`: `limpiar(); copiar(otra);`.
Self-assignment skips both calls and leaves the object as it is. -/
def ListaSensor.asignar (l otra : ListaSensor T) : ListaSensor T :=
  l.limpiar.copiar otra

/-- The list produced by a fresh `ListaSensor()` followed by one `insertar` per
value of `s`, in order. -/
def ListaSensor.deLecturas (s : List T) : ListaSensor T :=
  copiarDesde ListaSensor.nueva s

/-- The stored counter agrees with the number of nodes reachable from `cabeza`. -/
def ListaSensor.Consistente (l : ListaSensor T) : Prop :=
  l.tamano = (l.cabeza.length : Int)

instance (l : ListaSensor T) : Decidable l.Consistente := by
  unfold ListaSensor.Consistente
  infer_instance

/-- A finite use of the public interface of one `ListaSensor<T>` object, starting
from a constructor.  `autoasignar` is `x = x`; `asignar p q` is `x = y` for a
different object `y` built by `q`. -/
inductive Uso (T : Type) where
  | nueva : Uso T
  | copia (otra : Uso T) : Uso T
  | insertar (p : Uso T) (valor : T) : Uso T
  | eliminar (p : Uso T) (valor : T) : Uso T
  | eliminarMinimo (p : Uso T) : Uso T
  | limpiar (p : Uso T) : Uso T
  | asignar (p otra : Uso T) : Uso T
  | autoasignar (p : Uso T) : Uso T

/-- State of the object after the given use. -/
def Uso.estado (ops : Numerico T) : Uso T → ListaSensor T
  | .nueva => ListaSensor.nueva
  | .copia otra => (otra.estado ops).copia
  | .insertar p valor => (p.estado ops).insertar valor
  | .eliminar p valor => ((p.estado ops).eliminar ops valor).2
  | .eliminarMinimo p => ((p.estado ops).eliminarMinimo ops).2
  | .limpiar p => (p.estado ops).limpiar
  | .asignar p otra => (p.estado ops).asignar (otra.estado ops)
  | .autoasignar p => p.estado ops

/-- Membership in the 32-bit signed range. -/
def enRango32 (x : Int) : Bool := decide (-2147483648 ≤ x) && decide (x ≤ 2147483647)

/-- Every value taken by the accumulator `suma` of `calcularPromedio`, computed
without wrap-around from the accumulator value `suma`, lies in the `int` range. -/
def sumaEnRango (suma : Int) : List Int → Bool
  | [] => true
  | d :: resto => enRango32 (suma + d) && sumaEnRango (suma + d) resto

/-! ## The two sensor kinds -/

/-- `SensorTemperatura`: the inherited `nombre` and the `ListaSensor<float>`
history.  `float` is the type parameter `T`. -/
structure SensorTemperatura (T : Type) where
  nombre : List Char
  historial : ListaSensor T

/-- `SensorPresion`: the inherited `nombre` and the `ListaSensor<int>` history. -/
structure SensorPresion where
  nombre : List Char
  historial : ListaSensor Int
deriving DecidableEq

/-- What `SensorTemperatura::procesarLectura` reports, one case per output statement. -/
inductive ReporteTemperatura (T : Type) where
  /-- Output: "No hay lecturas para procesar." -/
  | sinLecturas : ReporteTemperatura T
  /-- Output: "Promedio calculado sobre `numLecturas` lectura (`promedio`)." -/
  | promedioUnico (numLecturas : Int) (promedio : T) : ReporteTemperatura T
  /-- Output: "Lectura más baja (`minimo`) eliminada. Promedio restante: `promedio`." -/
  | minimoEliminado (minimo promedio : T) : ReporteTemperatura T
  /-- Output: "Única lectura (`minimo`) procesada y eliminada." -/
  | unicaEliminada (minimo : T) : ReporteTemperatura T
deriving DecidableEq

/-- What `SensorPresion::procesarLectura` reports. -/
inductive ReportePresion where
  /-- Output: "No hay lecturas para procesar." -/
  | sinLecturas : ReportePresion
  /-- Output: "Promedio de lecturas: `promedio` (sobre `numLecturas` lecturas)." -/
  | promedio (promedio numLecturas : Int) : ReportePresion
deriving DecidableEq

/-- Member `SensorTemperatura::procesarLectura()`. -/
def SensorTemperatura.procesarLectura (ops : Numerico T)
    (s : SensorTemperatura T) : ReporteTemperatura T × SensorTemperatura T :=
  if s.historial.estaVacia then (.sinLecturas, s)
  else
    let numLecturas := s.historial.obtenerTamano
    if numLecturas = 1 then
      (.promedioUnico numLecturas (s.historial.calcularPromedio ops), s)
    else
      let r := s.historial.eliminarMinimo ops
      if !r.2.estaVacia then
        (.minimoEliminado r.1 (r.2.calcularPromedio ops), { s with historial := r.2 })
      else
        (.unicaEliminada r.1, { s with historial := r.2 })

/-- Member `SensorTemperatura::registrarLectura(temperatura)`. -/
def SensorTemperatura.registrarLectura (s : SensorTemperatura T) (temperatura : T) :
    SensorTemperatura T :=
  { s with historial := s.historial.insertar temperatura }

/-- Member `SensorTemperatura::obtenerNumeroLecturas()`. -/
def SensorTemperatura.obtenerNumeroLecturas (s : SensorTemperatura T) : Int :=
  s.historial.obtenerTamano

/-- Member `SensorTemperatura::tieneLecturas()`. -/
def SensorTemperatura.tieneLecturas (s : SensorTemperatura T) : Bool :=
  !s.historial.estaVacia

/-- Member `SensorPresion::procesarLectura()`. -/
def SensorPresion.procesarLectura (s : SensorPresion) : ReportePresion × SensorPresion :=
  if s.historial.estaVacia then (.sinLecturas, s)
  else
    let numLecturas := s.historial.obtenerTamano
    let promedio := s.historial.calcularPromedio entero32
    (.promedio promedio numLecturas, s)

/-- Member `SensorPresion::registrarLectura(presion)`. -/
def SensorPresion.registrarLectura (s : SensorPresion) (presion : Int) : SensorPresion :=
  { s with historial := s.historial.insertar presion }

/-- Member `SensorPresion::obtenerNumeroLecturas()`. -/
def SensorPresion.obtenerNumeroLecturas (s : SensorPresion) : Int :=
  s.historial.obtenerTamano

/-- Member `SensorPresion::tieneLecturas()`. -/
def SensorPresion.tieneLecturas (s : SensorPresion) : Bool :=
  !s.historial.estaVacia


/-! ## C strings and the `SensorBase` name buffer -/

/-- The terminator `'\0'` of a C string. -/
def NUL : Char := Char.ofNat 0

/-- The C string found at a `const char*`: the characters before the first
terminator.  The list is the memory at the pointer; a list without terminator
is read to its end. -/
def leerCadena : List Char → List Char
  | [] => []
  | c :: resto => if c = NUL then [] else c :: leerCadena resto

/-- C library `strcpy(dest, src)`: copy the characters of `src` up to and
including the terminator; the rest of `dest` keeps its content. -/
def strcpy : List Char → List Char → List Char
  | [], _ => []
  | _ :: dresto, [] => NUL :: dresto
  | _ :: dresto, c :: sresto =>
    if c = NUL then NUL :: dresto else c :: strcpy dresto sresto

/-- C library `strncpy(dest, src, n)`: write exactly `n` characters to `dest`,
the characters of `src` up to its terminator and then terminators as padding;
the rest of `dest` keeps its content. -/
def strncpy : List Char → List Char → Nat → List Char
  | dest, _, 0 => dest
  | [], _, _ + 1 => []
  | _ :: dresto, [], n + 1 => NUL :: strncpy dresto [] n
  | _ :: dresto, c :: sresto, n + 1 =>
    if c = NUL then NUL :: strncpy dresto [] n else c :: strncpy dresto sresto n

/-- C library `strcmp(a, b)`: compare the two C strings character by character;
zero exactly when they are equal. -/
def strcmp : List Char → List Char → Int
  | [], [] => 0
  | [], b :: _ => if b = NUL then 0 else (NUL.toNat : Int) - b.toNat
  | a :: _, [] => if a = NUL then 0 else (a.toNat : Int) - NUL.toNat
  | a :: aresto, b :: bresto =>
    if a ≠ b then (a.toNat : Int) - b.toNat
    else if a = NUL then 0
    else strcmp aresto bresto

/-- Size of the member `char nombre[50]`. -/
def capacidadNombre : Nat := 50

/-- Constructor `SensorBase()`: `strcpy(nombre, "Sensor_Default")`.  The argument
is the content of the uninitialised member `nombre` before the constructor runs. -/
def SensorBase.porDefecto (nombre : List Char) : List Char :=
  strcpy nombre "Sensor_Default".toList

/-- Constructor `SensorBase(const char* nombreSensor)`:
`strncpy(nombre, nombreSensor, sizeof(nombre) - 1); nombre[sizeof(nombre) - 1] = 0`.
The first argument is the content of the uninitialised member `nombre`. -/
def SensorBase.conNombre (nombre nombreSensor : List Char) : List Char :=
  (strncpy nombre nombreSensor (capacidadNombre - 1)).set (capacidadNombre - 1) NUL

/-- Member `SensorBase::establecerNombre(nombreSensor)`, on the member `nombre`. -/
def SensorBase.establecerNombre (nombre nombreSensor : List Char) : List Char :=
  (strncpy nombre nombreSensor (capacidadNombre - 1)).set (capacidadNombre - 1) NUL

/-- Member `SensorBase::obtenerNombre()`: the pointer to the member `nombre`. -/
def SensorBase.obtenerNombre (nombre : List Char) : List Char := nombre

/-- Constructor `SensorTemperatura()`: `SensorBase("Temp_Default")` and an empty history. -/
def SensorTemperatura.porDefecto (nombre : List Char) : SensorTemperatura T :=
  ⟨SensorBase.conNombre nombre "Temp_Default".toList, ListaSensor.nueva⟩

/-- Constructor `SensorTemperatura(const char* nombreSensor)`. -/
def SensorTemperatura.conNombre (nombre nombreSensor : List Char) : SensorTemperatura T :=
  ⟨SensorBase.conNombre nombre nombreSensor, ListaSensor.nueva⟩

/-- Constructor `SensorPresion()`: `SensorBase("Presion_Default")` and an empty history. -/
def SensorPresion.porDefecto (nombre : List Char) : SensorPresion :=
  ⟨SensorBase.conNombre nombre "Presion_Default".toList, ListaSensor.nueva⟩

/-- Constructor `SensorPresion(const char* nombreSensor)`. -/
def SensorPresion.conNombre (nombre nombreSensor : List Char) : SensorPresion :=
  ⟨SensorBase.conNombre nombre nombreSensor, ListaSensor.nueva⟩

/-- A finite use of the constructors of `SensorBase` and its two subclasses and of
`establecerNombre`, as far as the member `nombre` is concerned: `base` is
`SensorBase()`, `temperatura` is `SensorTemperatura()`, `presion` is
`SensorPresion()`, and `conNombre` is any of the constructors taking a name. -/
inductive UsoNombre where
  | base : UsoNombre
  | temperatura : UsoNombre
  | presion : UsoNombre
  | conNombre (nombreSensor : List Char) : UsoNombre
  | establecerNombre (p : UsoNombre) (nombreSensor : List Char) : UsoNombre

/-- Content of the member `nombre` after the given use; the argument is the
content of the uninitialised member before the constructor runs. -/
def UsoNombre.estado (nombre : List Char) : UsoNombre → List Char
  | .base => SensorBase.porDefecto nombre
  | .temperatura => SensorBase.conNombre nombre "Temp_Default".toList
  | .presion => SensorBase.conNombre nombre "Presion_Default".toList
  | .conNombre nombreSensor => SensorBase.conNombre nombre nombreSensor
  | .establecerNombre p nombreSensor =>
    SensorBase.establecerNombre (p.estado nombre) nombreSensor

/-- Every name string handed to a constructor or to `establecerNombre` in the
given use is a non-empty C string. -/
def UsoNombre.argumentosNoVacios : UsoNombre → Bool
  | .base => true
  | .temperatura => true
  | .presion => true
  | .conNombre nombreSensor => !(leerCadena nombreSensor).isEmpty
  | .establecerNombre p nombreSensor =>
    p.argumentosNoVacios && !(leerCadena nombreSensor).isEmpty

/-! ## The registry `ListaGestion` of `main.cpp` -/

/-- An object reached through a `SensorBase*`: one of the two concrete subclasses. -/
inductive Sensor (T : Type) where
  | temperatura (s : SensorTemperatura T) : Sensor T
  | presion (s : SensorPresion) : Sensor T

/-- Inherited member `obtenerNombre()` through a `SensorBase*`. -/
def Sensor.obtenerNombre : Sensor T → List Char
  | .temperatura s => SensorBase.obtenerNombre s.nombre
  | .presion s => SensorBase.obtenerNombre s.nombre

/-- What a virtual call of `procesarLectura` reports. -/
inductive ReporteSensor (T : Type) where
  | temperatura (r : ReporteTemperatura T) : ReporteSensor T
  | presion (r : ReportePresion) : ReporteSensor T

/-- Virtual call `sensor->procesarLectura()` through a `SensorBase*`. -/
def Sensor.procesarLectura (ops : Numerico T) :
    Sensor T → ReporteSensor T × Sensor T
  | .temperatura s =>
    (.temperatura (s.procesarLectura ops).1, .temperatura (s.procesarLectura ops).2)
  | .presion s => (.presion s.procesarLectura.1, .presion s.procesarLectura.2)

/-- The registry object: the chain of `NodoSensor`, each node holding the pointer
to a sensor object of its own. -/
structure ListaGestion (T : Type) where
  cabeza : List (Sensor T)

/-- Constructor `ListaGestion()`: `cabeza(nullptr)`. -/
def ListaGestion.nueva : ListaGestion T := ⟨[]⟩

/-- Loop of `insertarSensor` started at the node `actual` (holding `d`, followed
by the chain `actual->siguiente`): advance to the last node and link the new one. -/
def enlazarSensorAlFinal (d : Sensor T) : List (Sensor T) → Sensor T → List (Sensor T)
  | [], sensor => [d, sensor]
  | s :: resto, sensor => d :: enlazarSensorAlFinal s resto sensor

/-- Member `insertarSensor(sensor)`. -/
def ListaGestion.insertarSensor (g : ListaGestion T) (sensor : Sensor T) : ListaGestion T :=
  match g.cabeza with
  | [] => ⟨[sensor]⟩
  | d :: resto => ⟨enlazarSensorAlFinal d resto sensor⟩

/-- Loop of `buscarSensor` from the node `actual`, which is node number `i` of the
chain counted from 0 at `cabeza`.  The result is the number of the node whose
sensor pointer is returned. -/
def buscarSensorDesde (nombre : List Char) : List (Sensor T) → Nat → Option Nat
  | [], _ => none
  | s :: resto, i =>
    if strcmp s.obtenerNombre nombre = 0 then some i
    else buscarSensorDesde nombre resto (i + 1)

/-- Member `buscarSensor(nombre)`.  The returned `SensorBase*` is given by the
number of the node that holds it; `none` is `nullptr`. -/
def ListaGestion.buscarSensor (g : ListaGestion T) (nombre : List Char) : Option Nat :=
  buscarSensorDesde nombre g.cabeza 0

/-- Loop of `ejecutarProcesamientoPolimorfico` from the node `actual`: the reports
in the order they are printed, and the chain with each sensor as it is afterwards. -/
def procesarDesde (ops : Numerico T) :
    List (Sensor T) → List (ReporteSensor T) × List (Sensor T)
  | [] => ([], [])
  | s :: resto =>
    ((s.procesarLectura ops).1 :: (procesarDesde ops resto).1,
      (s.procesarLectura ops).2 :: (procesarDesde ops resto).2)

/-- What `ejecutarProcesamientoPolimorfico` prints. -/
inductive ReporteGestion (T : Type) where
  /-- Output: "No hay sensores registrados para procesar." -/
  | sinSensores : ReporteGestion T
  /-- Output: the header line and then the report of every sensor. -/
  | procesados (reportes : List (ReporteSensor T)) : ReporteGestion T

/-- Member `ejecutarProcesamientoPolimorfico()`. -/
def ListaGestion.ejecutarProcesamientoPolimorfico (ops : Numerico T)
    (g : ListaGestion T) : ReporteGestion T × ListaGestion T :=
  match g.cabeza with
  | [] => (.sinSensores, g)
  | s :: resto =>
    (.procesados (procesarDesde ops (s :: resto)).1, ⟨(procesarDesde ops (s :: resto)).2⟩)

/-- Loop of `mostrarTodosSensores` from the node `actual` with the running
`contador`: one printed line per node, the number and the name as a C string. -/
def mostrarDesde (contador : Int) : List (Sensor T) → List (Int × List Char)
  | [] => []
  | s :: resto => (contador, leerCadena s.obtenerNombre) :: mostrarDesde (contador + 1) resto

/-- What `mostrarTodosSensores` prints. -/
inductive Listado where
  /-- Output: "No hay sensores registrados." -/
  | sinSensores : Listado
  /-- Output: the header line and then one numbered line per sensor. -/
  | lineas (entradas : List (Int × List Char)) : Listado
deriving DecidableEq

/-- The numbered lines of a listing; the message for the empty registry has none. -/
def Listado.entradas : Listado → List (Int × List Char)
  | .sinSensores => []
  | .lineas entradas => entradas

/-- Member `mostrarTodosSensores()`. -/
def ListaGestion.mostrarTodosSensores (g : ListaGestion T) : Listado :=
  match g.cabeza with
  | [] => .sinSensores
  | s :: resto => .lineas (mostrarDesde 1 (s :: resto))

/-- Member `ListaGestion::estaVacia()`. -/
def ListaGestion.estaVacia (g : ListaGestion T) : Bool :=
  match g.cabeza with
  | [] => true
  | _ :: _ => false

/-- The registry after a fresh `ListaGestion()` and one `insertarSensor` per
sensor of the list, in order. -/
def ListaGestion.deSensores (sensores : List (Sensor T)) : ListaGestion T :=
  sensores.foldl ListaGestion.insertarSensor ListaGestion.nueva

/-! ## `ListaSensor<T>` on an explicit heap

The same member functions once more, this time on a memory of `Nodo<T>` cells
addressed by pointers, to speak about which nodes two list objects own. -/

/-- The struct `Nodo<T>`: the datum and the pointer to the next node. -/
structure Nodo (T : Type) where
  dato : T
  siguiente : Option Nat

/-- The free store: the cell at each address (`none` where no node is allocated)
and the address that the next `new` returns.  Addresses are handed out in
increasing order and are not handed out again after `delete`. -/
structure Memoria (T : Type) where
  celdas : Nat → Option (Nodo T)
  libre : Nat

/-- The free store before any allocation. -/
def Memoria.vacia : Memoria T := ⟨fun _ => none, 0⟩

/-- Expression `new Nodo<T>(valor)`: the new address and the memory afterwards. -/
def Memoria.nuevo (m : Memoria T) (valor : T) : Nat × Memoria T :=
  (m.libre, ⟨Function.update m.celdas m.libre (some ⟨valor, none⟩), m.libre + 1⟩)

/-- Assignment `a->siguiente = sig`. -/
def Memoria.escribirSiguiente (m : Memoria T) (a : Nat) (sig : Option Nat) : Memoria T :=
  match m.celdas a with
  | none => m
  | some nodo => ⟨Function.update m.celdas a (some ⟨nodo.dato, sig⟩), m.libre⟩

/-- Statement `delete a`. -/
def Memoria.liberar (m : Memoria T) (a : Nat) : Memoria T :=
  ⟨Function.update m.celdas a none, m.libre⟩

/-- The object `ListaSensor<T>` with its head pointer. -/
structure ListaSensorM where
  cabeza : Option Nat
  tamano : Int
deriving DecidableEq

/-- The pointer `p` leads through the nodes at the addresses `ds`, all different,
holding the values `xs` in this order, and ends in `nullptr`. -/
def EsLista (m : Memoria T) : Option Nat → List T → List Nat → Prop
  | p, [], [] => p = none
  | p, x :: xs, d :: ds =>
    p = some d ∧ d ∉ ds ∧ ∃ sig, m.celdas d = some ⟨x, sig⟩ ∧ EsLista m sig xs ds
  | _, _ :: _, [] => False
  | _, [], _ :: _ => False

/-- Loop of `insertar` on the heap from the node `actual`: the node at which
`actual->siguiente == nullptr`.  The first argument bounds the number of steps;
`none` stands for a walk that does not end within the bound or leaves the
allocated nodes. -/
def ultimoNodo (m : Memoria T) : Nat → Nat → Option Nat
  | 0, _ => none
  | pasos + 1, actual =>
    match m.celdas actual with
    | none => none
    | some nodo =>
      match nodo.siguiente with
      | none => some actual
      | some sig => ultimoNodo m pasos sig

/-- Member `insertar(valor)` on the heap. -/
def insertarM (m : Memoria T) (l : ListaSensorM) (valor : T) :
    Option (Memoria T × ListaSensorM) :=
  match l.cabeza with
  | none => some ((m.nuevo valor).2, ⟨some (m.nuevo valor).1, l.tamano + 1⟩)
  | some c =>
    match ultimoNodo (m.nuevo valor).2 (m.nuevo valor).2.libre c with
    | none => none
    | some actual =>
      some ((m.nuevo valor).2.escribirSiguiente actual (some (m.nuevo valor).1),
        ⟨some c, l.tamano + 1⟩)

/-- Second loop of `eliminar` on the heap from the node `actual`: the node at
which `actual->siguiente == nullptr` or `actual->siguiente->dato == valor`. -/
def anteriorAlValor (ops : Numerico T) (m : Memoria T) (valor : T) :
    Nat → Nat → Option Nat
  | 0, _ => none
  | pasos + 1, actual =>
    match m.celdas actual with
    | none => none
    | some nodo =>
      match nodo.siguiente with
      | none => some actual
      | some sig =>
        match m.celdas sig with
        | none => none
        | some nodoSig =>
          if !ops.igual nodoSig.dato valor then anteriorAlValor ops m valor pasos sig
          else some actual

/-- Member `eliminar(valor)` on the heap: the flag, the memory and the object. -/
def eliminarM (ops : Numerico T) (m : Memoria T) (l : ListaSensorM) (valor : T) :
    Option (Bool × Memoria T × ListaSensorM) :=
  match l.cabeza with
  | none => some (false, m, l)
  | some c =>
    match m.celdas c with
    | none => none
    | some nodoCabeza =>
      if ops.igual nodoCabeza.dato valor then
        some (true, m.liberar c, ⟨nodoCabeza.siguiente, l.tamano - 1⟩)
      else
        match anteriorAlValor ops m valor m.libre c with
        | none => none
        | some actual =>
          match m.celdas actual with
          | none => none
          | some nodoActual =>
            match nodoActual.siguiente with
            | none => some (false, m, l)
            | some temp =>
              match m.celdas temp with
              | none => none
              | some nodoTemp =>
                some (true, (m.escribirSiguiente actual nodoTemp.siguiente).liberar temp,
                  ⟨some c, l.tamano - 1⟩)

/-- Loop of `limpiar` on the heap: `temp = cabeza; cabeza = cabeza->siguiente;
delete temp` until `cabeza == nullptr`. -/
def liberarCadena (m : Memoria T) : Nat → Option Nat → Option (Memoria T)
  | _, none => some m
  | 0, some _ => none
  | pasos + 1, some c =>
    match m.celdas c with
    | none => none
    | some nodo => liberarCadena (m.liberar c) pasos nodo.siguiente

/-- Member `limpiar()` on the heap. -/
def limpiarM (m : Memoria T) (l : ListaSensorM) : Option (Memoria T × ListaSensorM) :=
  match liberarCadena m m.libre l.cabeza with
  | none => none
  | some m1 => some (m1, ⟨none, 0⟩)

/-- Loop of `copiar` on the heap from the pointer `actual` into the object `l`:
`insertar(actual->dato); actual = actual->siguiente`. -/
def copiarCadena : Nat → Memoria T → ListaSensorM → Option Nat →
    Option (Memoria T × ListaSensorM)
  | _, m, l, none => some (m, l)
  | 0, _, _, some _ => none
  | pasos + 1, m, l, some actual =>
    match m.celdas actual with
    | none => none
    | some nodo =>
      match insertarM m l nodo.dato with
      | none => none
      | some (m1, l1) =>
        match m1.celdas actual with
        | none => none
        | some nodo1 => copiarCadena pasos m1 l1 nodo1.siguiente

/-- Private member `copiar(otra)` on the heap. -/
def copiarM (m : Memoria T) (l otra : ListaSensorM) : Option (Memoria T × ListaSensorM) :=
  copiarCadena m.libre m l otra.cabeza

/-- Copy constructor on the heap: `cabeza(nullptr), tamaño(0)`, then `copiar(otra)`. -/
def copiaM (m : Memoria T) (otra : ListaSensorM) : Option (Memoria T × ListaSensorM) :=
  copiarM m ⟨none, 0⟩ otra

/-- Assignment `operator=` on the heap.  The flag says whether `this == &otra`. -/
def asignarM (mismoObjeto : Bool) (m : Memoria T) (l otra : ListaSensorM) :
    Option (Memoria T × ListaSensorM) :=
  if mismoObjeto then some (m, l)
  else
    match limpiarM m l with
    | none => none
    | some (m1, l1) => copiarM m1 l1 otra

/-- The values found by following the pointer `p` for at most the given number
of nodes. -/
def leerLista (m : Memoria T) : Nat → Option Nat → Option (List T)
  | _, none => some []
  | 0, some _ => none
  | pasos + 1, some a =>
    match m.celdas a with
    | none => none
    | some nodo => (leerLista m pasos nodo.siguiente).map (fun r => nodo.dato :: r)

/-- The object `l` owns the nodes at the addresses `ds`, all allocated, and they
hold the values `xs` in this order. -/
def Propia (m : Memoria T) (l : ListaSensorM) (xs : List T) (ds : List Nat) : Prop :=
  EsLista m l.cabeza xs ds ∧ ∀ a ∈ ds, a < m.libre

/-! ## Repeated calls and the use of a sensor -/

/-- The values returned by `n` calls of `eliminarMinimo()` in a row, in the order
of the calls, and the list afterwards. -/
def eliminarMinimoVeces (ops : Numerico T) :
    Nat → ListaSensor T → List T × ListaSensor T
  | 0, l => ([], l)
  | n + 1, l =>
    ((l.eliminarMinimo ops).1 :: (eliminarMinimoVeces ops n (l.eliminarMinimo ops).2).1,
      (eliminarMinimoVeces ops n (l.eliminarMinimo ops).2).2)

/-- Inherited member `establecerNombre(nombreSensor)` on a temperature sensor. -/
def SensorTemperatura.establecerNombre (s : SensorTemperatura T) (nombreSensor : List Char) :
    SensorTemperatura T :=
  { s with nombre := SensorBase.establecerNombre s.nombre nombreSensor }

/-- Inherited member `establecerNombre(nombreSensor)` on a pressure sensor. -/
def SensorPresion.establecerNombre (s : SensorPresion) (nombreSensor : List Char) :
    SensorPresion :=
  { s with nombre := SensorBase.establecerNombre s.nombre nombreSensor }

/-- A finite use of the public interface of one `SensorTemperatura` object,
starting from a constructor; the member functions declared `const` change
nothing and are left out. -/
inductive UsoTemperatura (T : Type) where
  | porDefecto : UsoTemperatura T
  | conNombre (nombreSensor : List Char) : UsoTemperatura T
  | registrarLectura (p : UsoTemperatura T) (temperatura : T) : UsoTemperatura T
  | procesarLectura (p : UsoTemperatura T) : UsoTemperatura T
  | establecerNombre (p : UsoTemperatura T) (nombreSensor : List Char) : UsoTemperatura T

/-- State of the temperature sensor after the given use; the first argument is
the content of the uninitialised member `nombre` before the constructor runs. -/
def UsoTemperatura.estado (nombre : List Char) (ops : Numerico T) :
    UsoTemperatura T → SensorTemperatura T
  | .porDefecto => SensorTemperatura.porDefecto nombre
  | .conNombre nombreSensor => SensorTemperatura.conNombre nombre nombreSensor
  | .registrarLectura p temperatura => (p.estado nombre ops).registrarLectura temperatura
  | .procesarLectura p => ((p.estado nombre ops).procesarLectura ops).2
  | .establecerNombre p nombreSensor => (p.estado nombre ops).establecerNombre nombreSensor

/-- A finite use of the public interface of one `SensorPresion` object, starting
from a constructor; the member functions declared `const` change nothing and
are left out. -/
inductive UsoPresion where
  | porDefecto : UsoPresion
  | conNombre (nombreSensor : List Char) : UsoPresion
  | registrarLectura (p : UsoPresion) (presion : Int) : UsoPresion
  | procesarLectura (p : UsoPresion) : UsoPresion
  | establecerNombre (p : UsoPresion) (nombreSensor : List Char) : UsoPresion

/-- State of the pressure sensor after the given use; the argument is the content
of the uninitialised member `nombre` before the constructor runs. -/
def UsoPresion.estado (nombre : List Char) : UsoPresion → SensorPresion
  | .porDefecto => SensorPresion.porDefecto nombre
  | .conNombre nombreSensor => SensorPresion.conNombre nombre nombreSensor
  | .registrarLectura p presion => (p.estado nombre).registrarLectura presion
  | .procesarLectura p => (p.estado nombre).procesarLectura.2
  | .establecerNombre p nombreSensor => (p.estado nombre).establecerNombre nombreSensor

/-! ## Comparisons that form a total order -/

/-- On the values of the list `S` the tests `==` and `<` of `T` are the equality
and the order of a position `clave` in a linear order.  This holds for every
list of `int`, and for a list of `float` exactly when it holds no NaN; two
values may share a position, as `+0.0` and `-0.0` do. -/
def Numerico.OrdenadoPor {K : Type} [LinearOrder K] (ops : Numerico T) (clave : T → K)
    (S : List T) : Prop :=
  ∀ a ∈ S, ∀ b ∈ S,
    (ops.igual a b = true ↔ clave a = clave b) ∧ (ops.menor a b = true ↔ clave a < clave b)

/-! ## Auxiliary facts about the loops -/

theorem enlazarAlFinal_eq (d : T) (resto : List T) (valor : T) :
    enlazarAlFinal d resto valor = d :: (resto ++ [valor]) := by
  induction resto generalizing d with
  | nil => rfl
  | cons s resto ih => simp [enlazarAlFinal, ih]

theorem insertar_cabeza (l : ListaSensor T) (valor : T) :
    (l.insertar valor).cabeza = l.cabeza ++ [valor] := by
  unfold ListaSensor.insertar
  cases h : l.cabeza with
  | nil => rfl
  | cons d resto => simp [enlazarAlFinal_eq]

theorem insertar_tamano (l : ListaSensor T) (valor : T) :
    (l.insertar valor).tamano = l.tamano + 1 := by
  unfold ListaSensor.insertar
  cases l.cabeza <;> rfl

theorem buscarDesde_eq (ops : Numerico T) (valor : T) (s : List T) :
    buscarDesde ops valor s = s.any (fun x => ops.igual x valor) := by
  induction s with
  | nil => rfl
  | cons d resto ih =>
    cases h : ops.igual d valor <;> simp [buscarDesde, h, ih]

theorem eliminarTras_eq (ops : Numerico T) (valor : T) (s : List T) :
    eliminarTras ops valor s
      = if s.any (fun x => ops.igual x valor) = true
        then some (s.eraseP (fun x => ops.igual x valor)) else none := by
  induction s with
  | nil => simp [eliminarTras]
  | cons d resto ih =>
    cases h : ops.igual d valor
    · by_cases hm : resto.any (fun x => ops.igual x valor) = true
      · simp [eliminarTras, h, ih, hm, List.eraseP_cons]
      · simp [eliminarTras, h, ih, hm]
    · simp [eliminarTras, h, List.eraseP_cons]

/-- The member `eliminar` in closed form: it looks for the first element that
compares equal to `valor` and unlinks it. -/
theorem eliminar_eq (ops : Numerico T) (l : ListaSensor T) (valor : T) :
    l.eliminar ops valor =
      if l.cabeza.any (fun x => ops.igual x valor) = true
      then (true, ⟨l.cabeza.eraseP (fun x => ops.igual x valor), l.tamano - 1⟩)
      else (false, l) := by
  unfold ListaSensor.eliminar
  cases hc : l.cabeza with
  | nil => simp
  | cons d resto =>
    cases h : ops.igual d valor
    · by_cases hm : resto.any (fun x => ops.igual x valor) = true
      · simp [h, hm, eliminarTras_eq, List.eraseP_cons]
      · simp [h, hm, eliminarTras_eq]
    · simp [h, List.eraseP_cons]

theorem buscarMinimo_mem (ops : Numerico T) (minimo : T) (s : List T) :
    buscarMinimo ops minimo s ∈ minimo :: s := by
  induction s generalizing minimo with
  | nil => simp [buscarMinimo]
  | cons d resto ih =>
    simp only [buscarMinimo]
    have := ih (if ops.menor d minimo = true then d else minimo)
    split_ifs at this ⊢ with h
    · simp only [List.mem_cons] at this ⊢
      tauto
    · simp only [List.mem_cons] at this ⊢
      tauto

theorem ordenadoPor_subconjunto {K : Type} [LinearOrder K] (ops : Numerico T)
    (clave : T → K) (S S2 : List T) (h : ops.OrdenadoPor clave S) (hs : ∀ x ∈ S2, x ∈ S) :
    ops.OrdenadoPor clave S2 :=
  fun a ha b hb => h a (hs a ha) b (hs b hb)

/-- On a list ordered by `clave` the scan of `eliminarMinimo` returns the first
element of least position: every element before it lies strictly higher, and no
element lies lower. -/
theorem buscarMinimo_primero {K : Type} [LinearOrder K] (ops : Numerico T) (clave : T → K)
    (minimo : T) (s : List T) (hord : ops.OrdenadoPor clave (minimo :: s)) :
    ∃ pre post, minimo :: s = pre ++ buscarMinimo ops minimo s :: post ∧
      (∀ y ∈ pre, clave (buscarMinimo ops minimo s) < clave y) ∧
      ∀ x ∈ minimo :: s, clave (buscarMinimo ops minimo s) ≤ clave x := by
  induction s generalizing minimo with
  | nil =>
    exact ⟨[], [], rfl, fun y hy => absurd hy (List.not_mem_nil _), by simp [buscarMinimo]⟩
  | cons d resto ih =>
    have hd : d ∈ minimo :: d :: resto := by simp
    have hm : minimo ∈ minimo :: d :: resto := by simp
    have hlt := (hord d hd minimo hm).2
    by_cases h : ops.menor d minimo = true
    · have hk : clave d < clave minimo := hlt.1 h
      have hord2 : ops.OrdenadoPor clave (d :: resto) :=
        ordenadoPor_subconjunto ops clave _ _ hord (fun x hx => List.mem_cons_of_mem _ hx)
      obtain ⟨pre, post, hsplit, hpre, hmin⟩ := ih d hord2
      have hr : buscarMinimo ops minimo (d :: resto) = buscarMinimo ops d resto := by
        simp [buscarMinimo, h]
      rw [hr]
      have hrd : clave (buscarMinimo ops d resto) ≤ clave d := hmin d (List.mem_cons_self _ _)
      refine ⟨minimo :: pre, post, congrArg (fun z => minimo :: z) hsplit, ?_, ?_⟩
      · intro y hy
        rcases List.mem_cons.1 hy with h1 | h1
        · rw [h1]
          exact lt_of_le_of_lt hrd hk
        · exact hpre y h1
      · intro x hx
        rcases List.mem_cons.1 hx with h1 | h1
        · rw [h1]
          exact le_of_lt (lt_of_le_of_lt hrd hk)
        · exact hmin x h1
    · have hk : clave minimo ≤ clave d := not_lt.1 (fun e => h (hlt.2 e))
      have hord2 : ops.OrdenadoPor clave (minimo :: resto) :=
        ordenadoPor_subconjunto ops clave _ _ hord (fun x hx => by
          rcases List.mem_cons.1 hx with h1 | h1
          · rw [h1]; exact hm
          · exact List.mem_cons_of_mem _ (List.mem_cons_of_mem _ h1))
      obtain ⟨pre, post, hsplit, hpre, hmin⟩ := ih minimo hord2
      have hr : buscarMinimo ops minimo (d :: resto) = buscarMinimo ops minimo resto := by
        simp [buscarMinimo, h]
      rw [hr]
      have hrm : clave (buscarMinimo ops minimo resto) ≤ clave minimo :=
        hmin minimo (List.mem_cons_self _ _)
      have hall : ∀ x ∈ minimo :: d :: resto,
          clave (buscarMinimo ops minimo resto) ≤ clave x := by
        intro x hx
        rcases List.mem_cons.1 hx with h1 | h1
        · rw [h1]; exact hrm
        · rcases List.mem_cons.1 h1 with h2 | h2
          · rw [h2]; exact le_trans hrm hk
          · exact hmin x (List.mem_cons_of_mem _ h2)
      cases pre with
      | nil =>
        simp only [List.nil_append, List.cons.injEq] at hsplit
        refine ⟨[], d :: resto, ?_, fun y hy => absurd hy (List.not_mem_nil _), hall⟩
        rw [← hsplit.1]
        rfl
      | cons y0 pre2 =>
        simp only [List.cons_append, List.cons.injEq] at hsplit
        refine ⟨minimo :: d :: pre2, post, ?_, ?_, hall⟩
        · exact congrArg (fun z => minimo :: d :: z) hsplit.2
        · intro y hy
          have hy0 : clave (buscarMinimo ops minimo resto) < clave y0 :=
            hpre y0 (List.mem_cons_self _ _)
          rw [← hsplit.1] at hy0
          rcases List.mem_cons.1 hy with h1 | h1
          · rw [h1]; exact hy0
          · rcases List.mem_cons.1 h1 with h2 | h2
            · rw [h2]; exact lt_of_lt_of_le hy0 hk
            · exact hpre y (List.mem_cons_of_mem _ h2)

theorem estaVacia_eq_false_iff (l : ListaSensor T) :
    l.estaVacia = false ↔ l.cabeza ≠ [] := by
  unfold ListaSensor.estaVacia
  cases l.cabeza <;> simp

theorem estaVacia_eq_true_iff (l : ListaSensor T) :
    l.estaVacia = true ↔ l.cabeza = [] := by
  unfold ListaSensor.estaVacia
  cases l.cabeza <;> simp


/-- On a non-empty list `eliminarMinimo` returns the scan result over the whole
chain and the state left by `eliminar` of that value. -/
theorem eliminarMinimo_eq (ops : Numerico T) (l : ListaSensor T)
    (d : T) (resto : List T) (hc : l.cabeza = d :: resto) :
    l.eliminarMinimo ops =
      (buscarMinimo ops d resto, (l.eliminar ops (buscarMinimo ops d resto)).2) := by
  unfold ListaSensor.eliminarMinimo
  rw [hc]

/-- On a non-empty list ordered by `clave`, `eliminarMinimo` returns an element
`m` of least position, the list is `pre ++ m :: post` with every element of
`pre` strictly higher, and the new state holds `pre ++ post` with the count one
less. -/
theorem eliminarMinimo_ordenado {K : Type} [LinearOrder K] (ops : Numerico T)
    (clave : T → K) (l : ListaSensor T) (hne : l.estaVacia = false)
    (hord : ops.OrdenadoPor clave l.cabeza) :
    ∃ pre post, l.cabeza = pre ++ (l.eliminarMinimo ops).1 :: post ∧
      (∀ y ∈ pre, clave (l.eliminarMinimo ops).1 < clave y) ∧
      (∀ x ∈ l.cabeza, clave (l.eliminarMinimo ops).1 ≤ clave x) ∧
      (l.eliminarMinimo ops).2 = ⟨pre ++ post, l.tamano - 1⟩ := by
  obtain ⟨d, resto, hc⟩ : ∃ d resto, l.cabeza = d :: resto := by
    have := (estaVacia_eq_false_iff l).1 hne
    cases h : l.cabeza with
    | nil => exact absurd h this
    | cons d resto => exact ⟨d, resto, rfl⟩
  have hord2 : ops.OrdenadoPor clave (d :: resto) := hc ▸ hord
  obtain ⟨pre, post, hsplit, hpre, hmin⟩ := buscarMinimo_primero ops clave d resto hord2
  have hm : buscarMinimo ops d resto ∈ l.cabeza := hc ▸ buscarMinimo_mem ops d resto
  have hrefl : ops.igual (buscarMinimo ops d resto) (buscarMinimo ops d resto) = true :=
    (hord _ hm _ hm).1.2 rfl
  have hpre2 : ∀ y ∈ pre,
      ¬ (fun x => ops.igual x (buscarMinimo ops d resto)) y = true := by
    intro y hy hig
    have hyl : y ∈ l.cabeza := by
      rw [hc, hsplit]
      exact List.mem_append_left _ hy
    have := (hord y hyl _ hm).1.1 hig
    exact absurd (hpre y hy) (by rw [this]; exact lt_irrefl _)
  rw [eliminarMinimo_eq ops l d resto hc, eliminar_eq]
  have hany : l.cabeza.any (fun x => ops.igual x (buscarMinimo ops d resto)) = true :=
    List.any_eq_true.2 ⟨_, hm, hrefl⟩
  rw [if_pos hany]
  refine ⟨pre, post, by rw [hc, hsplit], hpre, fun x hx => hmin x (hc ▸ hx), ?_⟩
  show (⟨l.cabeza.eraseP _, l.tamano - 1⟩ : ListaSensor T) = _
  rw [hc, hsplit, List.eraseP_append_right _ hpre2]
  simp [List.eraseP_cons, hrefl]

theorem liberarDesde_eq (s : List T) : liberarDesde s = [] := by
  induction s with
  | nil => rfl
  | cons d resto ih => simpa [liberarDesde] using ih

theorem copiarDesde_cabeza (l : ListaSensor T) (s : List T) :
    (copiarDesde l s).cabeza = l.cabeza ++ s := by
  induction s generalizing l with
  | nil => simp [copiarDesde]
  | cons d resto ih => simp [copiarDesde, ih, insertar_cabeza]

theorem copiarDesde_tamano (l : ListaSensor T) (s : List T) :
    (copiarDesde l s).tamano = l.tamano + s.length := by
  induction s generalizing l with
  | nil => simp [copiarDesde]
  | cons d resto ih =>
    simp only [copiarDesde, ih, insertar_tamano, List.length_cons]
    push_cast
    ring

theorem deLecturas_eq (s : List T) :
    ListaSensor.deLecturas s = ⟨s, (s.length : Int)⟩ := by
  have h1 := copiarDesde_cabeza (ListaSensor.nueva : ListaSensor T) s
  have h2 := copiarDesde_tamano (ListaSensor.nueva : ListaSensor T) s
  unfold ListaSensor.deLecturas
  cases h : copiarDesde (ListaSensor.nueva : ListaSensor T) s with
  | mk c t =>
    rw [h] at h1 h2
    simp only [ListaSensor.nueva, List.nil_append, zero_add] at h1 h2
    simp [h1, h2]

theorem consistente_nueva : (ListaSensor.nueva : ListaSensor T).Consistente := by
  simp [ListaSensor.Consistente, ListaSensor.nueva]

theorem consistente_insertar (l : ListaSensor T) (valor : T) (h : l.Consistente) :
    (l.insertar valor).Consistente := by
  unfold ListaSensor.Consistente at h ⊢
  rw [insertar_cabeza, insertar_tamano, h]
  simp

theorem consistente_eliminar (ops : Numerico T) (l : ListaSensor T) (valor : T)
    (h : l.Consistente) : (l.eliminar ops valor).2.Consistente := by
  rw [eliminar_eq]
  by_cases hm : l.cabeza.any (fun x => ops.igual x valor) = true
  · rw [if_pos hm]
    unfold ListaSensor.Consistente at h ⊢
    show l.tamano - 1 = ((l.cabeza.eraseP (fun x => ops.igual x valor)).length : Int)
    rw [List.length_eraseP, if_pos hm, h]
    obtain ⟨x, hx, _⟩ := List.any_eq_true.1 hm
    have := List.length_pos_of_mem hx
    omega
  · rw [if_neg hm]
    exact h

theorem consistente_eliminarMinimo (ops : Numerico T) (l : ListaSensor T)
    (h : l.Consistente) : (l.eliminarMinimo ops).2.Consistente := by
  unfold ListaSensor.eliminarMinimo
  cases hc : l.cabeza with
  | nil => exact h
  | cons d resto => exact consistente_eliminar ops l _ h

/-- The comparisons of `int` are those of the order of the integers. -/
theorem entero32_ordenado (S : List Int) : entero32.OrdenadoPor id S := by
  intro a _ b _
  simp [entero32]

/-- The comparisons of `float` on a list without NaN are those of the order of
the positions. -/
theorem flotante32_ordenado (S : List Flotante) (h : Flotante.nan ∉ S) :
    flotante32.OrdenadoPor Flotante.clave S := by
  intro a ha b hb
  have hna : a ≠ Flotante.nan := fun e => h (e ▸ ha)
  have hnb : b ≠ Flotante.nan := fun e => h (e ▸ hb)
  cases a with
  | nan => exact absurd rfl hna
  | infinito s =>
    cases b with
    | nan => exact absurd rfl hnb
    | infinito t => simp [flotante32, Flotante.igual, Flotante.menor]
    | finito t u => simp [flotante32, Flotante.igual, Flotante.menor]
  | finito s u =>
    cases b with
    | nan => exact absurd rfl hnb
    | infinito t => simp [flotante32, Flotante.igual, Flotante.menor]
    | finito t w => simp [flotante32, Flotante.igual, Flotante.menor]


/-- Whatever the comparisons answer, `eliminar` unlinks at most one node. -/
theorem eliminar_longitud (ops : Numerico T) (l : ListaSensor T) (valor : T) :
    l.cabeza.length ≤ (l.eliminar ops valor).2.cabeza.length + 1 := by
  rw [eliminar_eq]
  by_cases hm : l.cabeza.any (fun x => ops.igual x valor) = true
  · rw [if_pos hm]
    show l.cabeza.length ≤ (l.cabeza.eraseP (fun x => ops.igual x valor)).length + 1
    rw [List.length_eraseP, if_pos hm]
    omega
  · rw [if_neg hm]
    exact Nat.le_succ _

/-- Whatever the comparisons answer, `eliminarMinimo` unlinks at most one node. -/
theorem eliminarMinimo_longitud (ops : Numerico T) (l : ListaSensor T) :
    l.cabeza.length ≤ (l.eliminarMinimo ops).2.cabeza.length + 1 := by
  unfold ListaSensor.eliminarMinimo
  cases hc : l.cabeza with
  | nil => simp
  | cons d resto =>
    have := eliminar_longitud ops l (buscarMinimo ops d resto)
    rw [hc] at this
    exact this
theorem consistente_limpiar (l : ListaSensor T) : l.limpiar.Consistente := by
  simp [ListaSensor.Consistente, ListaSensor.limpiar, liberarDesde_eq]

theorem consistente_copiar (l otra : ListaSensor T) (h : l.Consistente) :
    (l.copiar otra).Consistente := by
  unfold ListaSensor.Consistente at h ⊢
  unfold ListaSensor.copiar
  rw [copiarDesde_cabeza, copiarDesde_tamano, h]
  simp

theorem sumarDesde_eq_foldl (ops : Numerico T) (suma : T) (s : List T) :
    sumarDesde ops suma s = s.foldl ops.suma suma := by
  induction s generalizing suma with
  | nil => rfl
  | cons d resto ih => simp [sumarDesde, ih]

theorem envolver32_eq (x : Int) (h : enRango32 x = true) : envolver32 x = x := by
  unfold enRango32 at h
  simp only [Bool.and_eq_true, decide_eq_true_eq] at h
  unfold envolver32
  omega

theorem sumarDesde_entero32 (suma : Int) (s : List Int) (h : sumaEnRango suma s = true) :
    sumarDesde entero32 suma s = suma + s.sum := by
  induction s generalizing suma with
  | nil => simp [sumarDesde]
  | cons d resto ih =>
    simp only [sumaEnRango, Bool.and_eq_true] at h
    simp only [sumarDesde, entero32, List.sum_cons]
    rw [envolver32_eq _ h.1]
    have := ih (suma + d) h.2
    simp only [entero32] at this
    rw [this]
    ring

theorem sumaEnRango_total (suma : Int) (s : List Int) (hs : enRango32 suma = true)
    (h : sumaEnRango suma s = true) : enRango32 (suma + s.sum) = true := by
  induction s generalizing suma with
  | nil => simpa using hs
  | cons d resto ih =>
    simp only [sumaEnRango, Bool.and_eq_true] at h
    have := ih (suma + d) h.1 h.2
    rw [List.sum_cons, ← add_assoc]
    exact this

theorem tdiv_enRango (x n : Int) (hx : enRango32 x = true) (hn : 0 < n) :
    enRango32 (Int.tdiv x n) = true := by
  unfold enRango32 at hx ⊢
  simp only [Bool.and_eq_true, decide_eq_true_eq] at hx ⊢
  rcases le_or_lt 0 x with h0 | h0
  · rw [Int.tdiv_eq_ediv h0 (le_of_lt hn)]
    have h1 : 0 ≤ x / n := Int.ediv_nonneg h0 (le_of_lt hn)
    have h2 : x / n ≤ x := Int.ediv_le_self n h0
    omega
  · have hneg : Int.tdiv x n = -(Int.tdiv (-x) n) := by
      rw [Int.neg_tdiv]; simp
    rw [hneg, Int.tdiv_eq_ediv (by omega) (le_of_lt hn)]
    have h1 : 0 ≤ (-x) / n := Int.ediv_nonneg (by omega) (le_of_lt hn)
    have h2 : (-x) / n ≤ -x := Int.ediv_le_self n (by omega)
    omega

/-- For a consistent non-empty `int` list whose running sum stays in range, the
average is the exact sum divided by the length, truncated toward zero. -/
theorem calcularPromedio_entero32 (l : ListaSensor Int) (hne : l.estaVacia = false)
    (hcons : l.Consistente) (hr : sumaEnRango 0 l.cabeza = true) :
    l.calcularPromedio entero32 = Int.tdiv l.cabeza.sum l.cabeza.length := by
  unfold ListaSensor.calcularPromedio
  rw [hne]
  simp only [Bool.false_eq_true, if_false]
  have hsum : sumarDesde entero32 entero32.cero l.cabeza = l.cabeza.sum := by
    have := sumarDesde_entero32 0 l.cabeza hr
    simpa [entero32] using this
  rw [hsum]
  unfold ListaSensor.Consistente at hcons
  rw [hcons]
  have hpos : (0 : Int) < l.cabeza.length := by
    have := (estaVacia_eq_false_iff l).1 hne
    have := List.length_pos.2 this
    exact_mod_cast this
  have htot : enRango32 l.cabeza.sum = true := by
    have := sumaEnRango_total 0 l.cabeza (by decide) hr
    simpa using this
  show envolver32 (Int.tdiv l.cabeza.sum l.cabeza.length) = _
  exact envolver32_eq _ (tdiv_enRango _ _ htot hpos)


/-! ## Facts about the type `float` -/

theorem unidadesDeUno_eq : unidadesDeUno = 2 ^ 149 := by
  norm_num [unidadesDeUno]

theorem unidadesDeInfinito_eq : unidadesDeInfinito = 2 ^ 277 := by
  norm_num [unidadesDeInfinito]

set_option maxRecDepth 10000 in
/-- The arithmetic of `float` rounds to 24 significant bits: `1.0 / 3.0` is
`11184811 * 2^(-25)` and `16777216.0 + 1.0` is `16777216.0`. -/
theorem flotante32_redondea :
    Flotante.divide (Flotante.deEntero 1) (Flotante.deEntero 3)
      = Flotante.finito false (11184811 * 2 ^ 124) ∧
    Flotante.suma (Flotante.deEntero 16777216) (Flotante.deEntero 1)
      = Flotante.deEntero 16777216 := by
  decide

set_option maxRecDepth 10000 in
/-- The comparisons of `float` on NaN and on the two zeros: NaN is neither equal
to nor less than anything, itself included, and `-0.0 == +0.0`. -/
theorem flotante32_comparaciones :
    flotante32.igual Flotante.nan Flotante.nan = false ∧
    (∀ x, flotante32.menor x Flotante.nan = false ∧ flotante32.menor Flotante.nan x = false ∧
      flotante32.igual x Flotante.nan = false ∧ flotante32.igual Flotante.nan x = false) ∧
    flotante32.igual (Flotante.finito true 0) (Flotante.finito false 0) = true := by
  refine ⟨by decide, ?_, by decide⟩
  intro x
  cases x <;> simp [flotante32, Flotante.igual, Flotante.menor]

/-! ## `eliminarMinimo` -/

set_option maxRecDepth 10000 in
/-- C1, counterexample. On the `float` list `[NaN, 2.0]` the scan keeps the head
NaN as the minimum, because `2.0 < NaN` is false, and `eliminar(NaN)` finds no
node, because `NaN == NaN` is false: the value returned is NaN, which is neither
less than nor equal to the element `2.0`, no node is removed and the count is
still 2. -/
theorem eliminarMinimo_con_nan_no_extrae :
    (ListaSensor.deLecturas [Flotante.nan, Flotante.deEntero 2]).estaVacia = false ∧
    ((ListaSensor.deLecturas [Flotante.nan, Flotante.deEntero 2]).eliminarMinimo
      flotante32).1 = Flotante.nan ∧
    flotante32.menor Flotante.nan (Flotante.deEntero 2) = false ∧
    flotante32.igual Flotante.nan (Flotante.deEntero 2) = false ∧
    ((ListaSensor.deLecturas [Flotante.nan, Flotante.deEntero 2]).eliminarMinimo
      flotante32).2 = ListaSensor.deLecturas [Flotante.nan, Flotante.deEntero 2] ∧
    ((ListaSensor.deLecturas [Flotante.nan, Flotante.deEntero 2]).eliminarMinimo
      flotante32).2.obtenerTamano
      ≠ (ListaSensor.deLecturas [Flotante.nan, Flotante.deEntero 2]).obtenerTamano - 1 := by
  decide

/-- C1, amended. On a non-empty list on whose elements `==` and `<` are the
comparisons of a total order (every list of `int`; a list of `float` without
NaN), `eliminarMinimo` returns a value `m` that occurs in the list and is less
than or equal to every element; afterwards the list holds exactly one occurrence
of `m` fewer, every other value keeps its multiplicity, and `obtenerTamaño` is
one less than before. -/
theorem eliminarMinimo_extrae_un_minimo {K : Type} [LinearOrder K] [DecidableEq T]
    (ops : Numerico T) (clave : T → K) (l : ListaSensor T) (hne : l.estaVacia = false)
    (hord : ops.OrdenadoPor clave l.cabeza) :
    (l.eliminarMinimo ops).1 ∈ l.cabeza ∧
    (∀ x ∈ l.cabeza, ops.menor (l.eliminarMinimo ops).1 x = true ∨
      ops.igual (l.eliminarMinimo ops).1 x = true) ∧
    (l.eliminarMinimo ops).2.cabeza.count (l.eliminarMinimo ops).1 + 1
      = l.cabeza.count (l.eliminarMinimo ops).1 ∧
    (∀ x, x ≠ (l.eliminarMinimo ops).1 →
      (l.eliminarMinimo ops).2.cabeza.count x = l.cabeza.count x) ∧
    (l.eliminarMinimo ops).2.obtenerTamano = l.obtenerTamano - 1 := by
  obtain ⟨pre, post, hsplit, _, hmin, hres⟩ := eliminarMinimo_ordenado ops clave l hne hord
  have hm : (l.eliminarMinimo ops).1 ∈ l.cabeza := by
    rw [hsplit]
    simp
  refine ⟨hm, ?_, ?_, ?_, ?_⟩
  · intro x hx
    rcases lt_or_eq_of_le (hmin x hx) with h | h
    · exact Or.inl ((hord _ hm x hx).2.2 h)
    · exact Or.inr ((hord _ hm x hx).1.2 h)
  · rw [hres]
    show (pre ++ post).count _ + 1 = _
    conv_rhs => rw [hsplit]
    simp only [List.count_append, List.count_cons_self]
    omega
  · intro x hx
    rw [hres]
    show (pre ++ post).count x = _
    conv_rhs => rw [hsplit]
    simp only [List.count_append]
    rw [List.count_cons_of_ne hx]
  · rw [hres]
    rfl

/-- Witness for C1 as amended on the `int` list `[3, 1, 2, 1]`. -/
theorem eliminarMinimo_extrae_un_minimo_witness :
    (ListaSensor.deLecturas [3, 1, 2, 1] : ListaSensor Int).estaVacia = false ∧
    entero32.OrdenadoPor id (ListaSensor.deLecturas [3, 1, 2, 1] : ListaSensor Int).cabeza ∧
    ((ListaSensor.deLecturas [3, 1, 2, 1]).eliminarMinimo entero32).1 = 1 ∧
    (((ListaSensor.deLecturas [3, 1, 2, 1]).eliminarMinimo entero32).2.cabeza.count 1 + 1
      = ([3, 1, 2, 1] : List Int).count 1) ∧
    ((ListaSensor.deLecturas [3, 1, 2, 1]).eliminarMinimo entero32).2.obtenerTamano = 3 :=
  ⟨by decide, entero32_ordenado _, by decide,
    (eliminarMinimo_extrae_un_minimo entero32 id (ListaSensor.deLecturas [3, 1, 2, 1])
      (by decide) (entero32_ordenado _)).2.2.1,
    by decide⟩

set_option maxRecDepth 10000 in
/-- C2, counterexample. In the `float` list `[NaN, 1.0, 1.0]` the value `1.0` is
below or equal to every number and occurs twice, but `eliminarMinimo` returns
NaN and deletes no node: the list is the same afterwards, not the list with the
element at index 1, or at any other index, deleted. -/
theorem eliminarMinimo_con_nan_no_borra :
    ((ListaSensor.deLecturas
      [Flotante.nan, Flotante.deEntero 1, Flotante.deEntero 1]).eliminarMinimo
      flotante32).1 = Flotante.nan ∧
    ((ListaSensor.deLecturas
      [Flotante.nan, Flotante.deEntero 1, Flotante.deEntero 1]).eliminarMinimo
      flotante32).2.cabeza = [Flotante.nan, Flotante.deEntero 1, Flotante.deEntero 1] ∧
    ((ListaSensor.deLecturas
      [Flotante.nan, Flotante.deEntero 1, Flotante.deEntero 1]).eliminarMinimo
      flotante32).2.cabeza
      ≠ [Flotante.nan, Flotante.deEntero 1, Flotante.deEntero 1].eraseIdx 1 ∧
    ∀ i : Fin 3, ((ListaSensor.deLecturas
      [Flotante.nan, Flotante.deEntero 1, Flotante.deEntero 1]).eliminarMinimo
      flotante32).2.cabeza
      ≠ [Flotante.nan, Flotante.deEntero 1, Flotante.deEntero 1].eraseIdx i.val := by
  decide

/-- C2, amended. On a non-empty list on whose elements `==` and `<` are the
comparisons of a total order (every list of `int`; a list of `float` without
NaN), in particular one whose minimum occurs more than once, `eliminarMinimo`
deletes the earliest occurrence of the minimum: the list splits as
`pre ++ m :: post` with `m` the returned minimum, `m` not in `pre` and no element
of `pre` equal to `m` under `==`, and the resulting chain is `pre ++ post`, the
other elements in their order. -/
theorem eliminarMinimo_borra_primera_aparicion {K : Type} [LinearOrder K]
    (ops : Numerico T) (clave : T → K) (l : ListaSensor T) (hne : l.estaVacia = false)
    (hord : ops.OrdenadoPor clave l.cabeza) :
    (∀ x ∈ l.cabeza, ops.menor (l.eliminarMinimo ops).1 x = true ∨
      ops.igual (l.eliminarMinimo ops).1 x = true) ∧
    ∃ pre post : List T,
      l.cabeza = pre ++ (l.eliminarMinimo ops).1 :: post ∧
      (l.eliminarMinimo ops).1 ∉ pre ∧
      (∀ y ∈ pre, ops.igual y (l.eliminarMinimo ops).1 = false) ∧
      (l.eliminarMinimo ops).2.cabeza = pre ++ post ∧
      (l.eliminarMinimo ops).2.cabeza = l.cabeza.eraseIdx pre.length := by
  obtain ⟨pre, post, hsplit, hpre, hmin, hres⟩ := eliminarMinimo_ordenado ops clave l hne hord
  have hm : (l.eliminarMinimo ops).1 ∈ l.cabeza := by
    rw [hsplit]
    simp
  refine ⟨?_, pre, post, hsplit, ?_, ?_, by rw [hres], ?_⟩
  · intro x hx
    rcases lt_or_eq_of_le (hmin x hx) with h | h
    · exact Or.inl ((hord _ hm x hx).2.2 h)
    · exact Or.inr ((hord _ hm x hx).1.2 h)
  · intro hmem
    exact lt_irrefl _ (hpre _ hmem)
  · intro y hy
    have hyl : y ∈ l.cabeza := by
      rw [hsplit]
      exact List.mem_append_left _ hy
    cases hig : ops.igual y (l.eliminarMinimo ops).1 with
    | false => rfl
    | true =>
      have := (hord y hyl _ hm).1.1 hig
      exact absurd (hpre y hy) (by rw [this]; exact lt_irrefl _)
  · rw [hres]
    show pre ++ post = _
    conv_rhs => rw [hsplit]
    rw [List.eraseIdx_append_of_length_le (le_refl _)]
    simp

/-- Witness for C2 as amended: in `[3, 1, 2, 1]` the minimum `1` occurs twice and
the one at index 1 is deleted. -/
theorem eliminarMinimo_borra_primera_aparicion_witness :
    (2 ≤ ([3, 1, 2, 1] : List Int).count 1) ∧
    (ListaSensor.deLecturas [3, 1, 2, 1]).eliminarMinimo entero32
      = (1, ListaSensor.deLecturas [3, 2, 1]) ∧
    (∀ x ∈ (ListaSensor.deLecturas [3, 1, 2, 1] : ListaSensor Int).cabeza,
      entero32.menor ((ListaSensor.deLecturas [3, 1, 2, 1]).eliminarMinimo entero32).1 x
        = true ∨
      entero32.igual ((ListaSensor.deLecturas [3, 1, 2, 1]).eliminarMinimo entero32).1 x
        = true) :=
  ⟨by decide, by decide,
    (eliminarMinimo_borra_primera_aparicion entero32 id
      (ListaSensor.deLecturas [3, 1, 2, 1]) (by decide) (entero32_ordenado _)).1⟩

/-! ## `eliminar`, `insertar`, `buscar` -/

set_option maxRecDepth 10000 in
/-- C4, counterexample. On the `float` list `[NaN]` the value NaN occurs, but
`eliminar(NaN)` returns false and leaves the list as it is, because `NaN == NaN`
is false. -/
theorem eliminar_nan_no_encuentra :
    Flotante.nan ∈ (ListaSensor.deLecturas [Flotante.nan]).cabeza ∧
    ((ListaSensor.deLecturas [Flotante.nan]).eliminar flotante32 Flotante.nan).1 = false ∧
    ((ListaSensor.deLecturas [Flotante.nan]).eliminar flotante32 Flotante.nan).2
      = ListaSensor.deLecturas [Flotante.nan] := by
  decide

/-- C4, amended. `eliminar(v)` returns true exactly when some element of the list
compares equal to `v` under `==`.  When it returns true the list was
`pre ++ x :: post` with `x == v` and no element of `pre` equal to `v`, the new
chain is `pre ++ post` and the counter is one less; when it returns false (also
on the empty list) the state, counter included, is unchanged.  Where `==`
between the elements and `v` is identity (always for `int`), this is: true
exactly when `v` occurs, and the first occurrence of `v` is the one deleted. -/
theorem eliminar_primera_aparicion (ops : Numerico T) (l : ListaSensor T) (v : T) :
    ((l.eliminar ops v).1 = true ↔ ∃ x ∈ l.cabeza, ops.igual x v = true) ∧
    ((l.eliminar ops v).1 = true →
      (∃ pre x post, l.cabeza = pre ++ x :: post ∧ ops.igual x v = true ∧
        (∀ y ∈ pre, ops.igual y v = false) ∧
        (l.eliminar ops v).2.cabeza = pre ++ post) ∧
      (l.eliminar ops v).2.obtenerTamano = l.obtenerTamano - 1) ∧
    ((l.eliminar ops v).1 = false → (l.eliminar ops v).2 = l) ∧
    ((∀ x ∈ l.cabeza, ops.igual x v = true ↔ x = v) →
      ((l.eliminar ops v).1 = true ↔ v ∈ l.cabeza) ∧
      ((l.eliminar ops v).1 = true →
        ∃ pre post, l.cabeza = pre ++ v :: post ∧ v ∉ pre ∧
          (l.eliminar ops v).2.cabeza = pre ++ post)) := by
  have hsplit : l.cabeza.any (fun x => ops.igual x v) = true →
      ∃ pre x post, l.cabeza = pre ++ x :: post ∧ ops.igual x v = true ∧
        (∀ y ∈ pre, ops.igual y v = false) ∧
        l.cabeza.eraseP (fun x => ops.igual x v) = pre ++ post := by
    intro hany
    obtain ⟨x0, hx0, hp0⟩ := List.any_eq_true.1 hany
    obtain ⟨x, pre, post, hpre, hpx, hs, he⟩ :=
      List.exists_of_eraseP (p := fun x => ops.igual x v) hx0 hp0
    refine ⟨pre, x, post, hs, hpx, ?_, he⟩
    intro y hy
    cases h : ops.igual y v with
    | false => rfl
    | true => exact absurd h (hpre y hy)
  rw [eliminar_eq]
  by_cases hm : l.cabeza.any (fun x => ops.igual x v) = true
  · obtain ⟨pre, x, post, hs, hpx, hpre, he⟩ := hsplit hm
    have hex : ∃ x ∈ l.cabeza, ops.igual x v = true := List.any_eq_true.1 hm
    rw [if_pos hm]
    refine ⟨⟨fun _ => hex, fun _ => rfl⟩, fun _ => ⟨⟨pre, x, post, hs, hpx, hpre, he⟩, rfl⟩,
      fun h => absurd h (by simp), ?_⟩
    intro hid
    have hxl : x ∈ l.cabeza := by
      rw [hs]
      simp
    have hxv : x = v := (hid x hxl).1 hpx
    subst hxv
    refine ⟨⟨fun _ => hxl, fun _ => rfl⟩, fun _ => ⟨pre, post, hs, ?_, he⟩⟩
    intro hmem
    have := hpre x hmem
    rw [hpx] at this
    exact absurd this (by simp)
  · have hno : ¬ ∃ x ∈ l.cabeza, ops.igual x v = true := fun h => hm (List.any_eq_true.2 h)
    rw [if_neg hm]
    refine ⟨⟨fun h => absurd h (by simp), fun h => absurd h hno⟩,
      fun h => absurd h (by simp), fun _ => rfl, ?_⟩
    intro hid
    refine ⟨⟨fun h => absurd h (by simp), ?_⟩, fun h => absurd h (by simp)⟩
    intro hv
    exact absurd ⟨v, hv, (hid v hv).2 rfl⟩ hno

/-- Witness for C4 as amended on the `int` list `[3, 1, 2, 1]` and the value 1. -/
theorem eliminar_primera_aparicion_witness :
    (∀ x ∈ (ListaSensor.deLecturas [3, 1, 2, 1] : ListaSensor Int).cabeza,
      entero32.igual x 1 = true ↔ x = 1) ∧
    ((ListaSensor.deLecturas [3, 1, 2, 1]).eliminar entero32 1)
      = (true, ListaSensor.deLecturas [3, 2, 1]) ∧
    (((ListaSensor.deLecturas [3, 1, 2, 1]).eliminar entero32 1).1 = true ↔
      (1 : Int) ∈ (ListaSensor.deLecturas [3, 1, 2, 1] : ListaSensor Int).cabeza) :=
  ⟨by decide, by decide,
    ((eliminar_primera_aparicion entero32 (ListaSensor.deLecturas [3, 1, 2, 1]) 1).2.2.2
      (by decide)).1⟩

set_option maxRecDepth 10000 in
/-- C5, counterexample. After `insertar(NaN)` on the empty `float` list the call
`buscar(NaN)` returns false, because `NaN == NaN` is false. -/
theorem buscar_nan_tras_insertar :
    ((ListaSensor.nueva : ListaSensor Flotante).insertar Flotante.nan).buscar flotante32
      Flotante.nan = false := by
  decide

/-- C5, amended. For every list and every value `v` that compares equal to itself
under `==` (every `int`; every `float` other than NaN), after `insertar(v)` the
call `buscar(v)` returns true. -/
theorem buscar_tras_insertar (ops : Numerico T) (l : ListaSensor T) (v : T)
    (hv : ops.igual v v = true) : (l.insertar v).buscar ops v = true := by
  unfold ListaSensor.buscar
  rw [buscarDesde_eq, insertar_cabeza]
  simp [hv]

set_option maxRecDepth 10000 in
/-- Witness for C5 as amended on the `float` list `[NaN]` and the value `2.0`. -/
theorem buscar_tras_insertar_witness :
    flotante32.igual (Flotante.deEntero 2) (Flotante.deEntero 2) = true ∧
    ((ListaSensor.deLecturas [Flotante.nan]).insertar (Flotante.deEntero 2)).buscar
      flotante32 (Flotante.deEntero 2) = true :=
  ⟨by decide,
    buscar_tras_insertar flotante32 (ListaSensor.deLecturas [Flotante.nan])
      (Flotante.deEntero 2) (by decide)⟩

/-- C6. `insertar(v)` is total and yields the previous chain followed by `v` as
its last element; `obtenerTamaño` grows by exactly 1. -/
theorem insertar_al_final (l : ListaSensor T) (v : T) :
    (l.insertar v).cabeza = l.cabeza ++ [v] ∧
    (l.insertar v).cabeza.getLast? = some v ∧
    (l.insertar v).cabeza.take l.cabeza.length = l.cabeza ∧
    (l.insertar v).obtenerTamano = l.obtenerTamano + 1 := by
  refine ⟨insertar_cabeza l v, ?_, ?_, insertar_tamano l v⟩
  · rw [insertar_cabeza]; simp
  · rw [insertar_cabeza]; simp

/-! ## `calcularPromedio` -/

/-- C3, counterexample. On the `int` list `[2147483647, 1]` the running sum
wraps to `-2147483648`, so `calcularPromedio` returns `-1073741824`, while the
sum of the elements divided by their number, truncated toward zero, is
`1073741824`. -/
theorem calcularPromedio_desborda :
    (ListaSensor.deLecturas [2147483647, 1] : ListaSensor Int).estaVacia = false ∧
    (ListaSensor.deLecturas [2147483647, 1]).calcularPromedio entero32 = -1073741824 ∧
    Int.tdiv ([2147483647, 1] : List Int).sum ([2147483647, 1] : List Int).length
      = 1073741824 ∧
    (ListaSensor.deLecturas [2147483647, 1]).calcularPromedio entero32
      ≠ Int.tdiv ([2147483647, 1] : List Int).sum ([2147483647, 1] : List Int).length := by
  decide

set_option maxRecDepth 10000 in
/-- C3, amended. On a non-empty list whose counter is its number of elements,
`calcularPromedio` returns the elements added from left to right, starting from
`T{}`, divided by their number, both under the arithmetic of `T` (for `float`
every step rounded: `[1.0, 2.0]` gives `1.5`).  For `T = int` (the pressure
history), when the running sum stays in the 32-bit range, this is the exact sum
divided by the number of elements, truncated toward zero; `[10, 20, 30]` gives
`20` and `[-1, -2]` gives `-1`. -/
theorem calcularPromedio_suma_entre_cuenta :
    (∀ (T : Type) (ops : Numerico T) (l : ListaSensor T), l.estaVacia = false →
      l.Consistente →
      l.calcularPromedio ops
        = ops.divide (l.cabeza.foldl ops.suma ops.cero)
            (ops.deEntero (l.cabeza.length : Int))) ∧
    (∀ l : ListaSensor Int, l.estaVacia = false → l.Consistente →
      sumaEnRango 0 l.cabeza = true →
      l.calcularPromedio entero32 = Int.tdiv l.cabeza.sum l.cabeza.length) ∧
    (ListaSensor.deLecturas [10, 20, 30]).calcularPromedio entero32 = 20 ∧
    (ListaSensor.deLecturas [-1, -2]).calcularPromedio entero32 = -1 ∧
    (ListaSensor.deLecturas [Flotante.deEntero 1, Flotante.deEntero 2]).calcularPromedio
      flotante32 = Flotante.divide (Flotante.deEntero 3) (Flotante.deEntero 2) := by
  refine ⟨?_, calcularPromedio_entero32, by decide, by decide, by decide⟩
  intro T ops l hne hcons
  unfold ListaSensor.Consistente at hcons
  unfold ListaSensor.calcularPromedio
  rw [hne, sumarDesde_eq_foldl, hcons]
  simp

/-- Witness for C3 as amended on the `int` list `[7, -2, -8]`: sum `-3`, three
elements, quotient truncated toward zero `-1`. -/
theorem calcularPromedio_suma_entre_cuenta_witness :
    (ListaSensor.deLecturas [7, -2, -8] : ListaSensor Int).estaVacia = false ∧
    (ListaSensor.deLecturas [7, -2, -8] : ListaSensor Int).Consistente ∧
    sumaEnRango 0 (ListaSensor.deLecturas [7, -2, -8] : ListaSensor Int).cabeza = true ∧
    (ListaSensor.deLecturas [7, -2, -8]).calcularPromedio entero32 = Int.tdiv (-3) 3 :=
  ⟨by decide, by decide, by decide,
    calcularPromedio_suma_entre_cuenta.2.1 (ListaSensor.deLecturas [7, -2, -8])
      (by decide) (by decide) (by decide)⟩

/-! ## The counter invariant -/

/-- C7. After any use of the interface that starts from a constructor and goes
through `insertar`, `eliminar`, `eliminarMinimo`, `limpiar`, copy construction
and assignment, the stored counter returned by `obtenerTamaño` equals the number
of nodes reachable from `cabeza`, whatever the comparisons of `T` answer. -/
theorem tamano_cuenta_los_nodos (ops : Numerico T) (p : Uso T) :
    (p.estado ops).obtenerTamano = ((p.estado ops).cabeza.length : Int) := by
  show (p.estado ops).Consistente
  induction p with
  | nueva => exact consistente_nueva
  | copia otra _ => exact consistente_copiar _ _ (by simp [ListaSensor.Consistente])
  | insertar p valor ih => exact consistente_insertar _ _ ih
  | eliminar p valor ih => exact consistente_eliminar ops _ _ ih
  | eliminarMinimo p ih => exact consistente_eliminarMinimo ops _ ih
  | limpiar p _ => exact consistente_limpiar _
  | asignar p otra _ _ => exact consistente_copiar _ _ (consistente_limpiar _)
  | autoasignar p ih => exact ih

/-! ## The empty list -/

/-- C8. On the empty list (no node, counter 0) `calcularPromedio` and
`eliminarMinimo` both return `T{}`, which is `0` for `int` and `+0.0` for
`float`; `eliminarMinimo` leaves the state as it was, so the list is still empty
and its count still 0. -/
theorem vacia_devuelve_cero (ops : Numerico T) (l : ListaSensor T)
    (hv : l.estaVacia = true) (h0 : l.obtenerTamano = 0) :
    l.calcularPromedio ops = ops.cero ∧
    (l.eliminarMinimo ops).1 = ops.cero ∧
    (l.eliminarMinimo ops).2 = l ∧
    (l.eliminarMinimo ops).2.estaVacia = true ∧
    (l.eliminarMinimo ops).2.obtenerTamano = 0 ∧
    entero32.cero = 0 ∧ racional.cero = 0 ∧
    flotante32.cero = Flotante.finito false 0 := by
  have hc : l.cabeza = [] := (estaVacia_eq_true_iff l).1 hv
  have he : l.eliminarMinimo ops = (ops.cero, l) := by
    unfold ListaSensor.eliminarMinimo
    rw [hc]
  rw [he]
  refine ⟨?_, rfl, rfl, hv, h0, rfl, rfl, rfl⟩
  unfold ListaSensor.calcularPromedio
  rw [hv]
  simp

/-- Witness for C8 on the freshly constructed `int` list. -/
theorem vacia_devuelve_cero_witness :
    (ListaSensor.nueva : ListaSensor Int).estaVacia = true ∧
    (ListaSensor.nueva : ListaSensor Int).obtenerTamano = 0 ∧
    (ListaSensor.nueva : ListaSensor Int).calcularPromedio entero32 = 0 ∧
    ((ListaSensor.nueva : ListaSensor Int).eliminarMinimo entero32).1 = 0 :=
  ⟨by decide, by decide,
    (vacia_devuelve_cero entero32 ListaSensor.nueva (by decide) (by decide)).1,
    (vacia_devuelve_cero entero32 ListaSensor.nueva (by decide) (by decide)).2.1⟩

/-! ## `procesarLectura` -/

/-- With more than one reading, all ordered by `==` and `<`, the temperature
sensor takes the branch that extracts the minimum and reports the average of the
rest. -/
theorem procesarLectura_ordenado {K : Type} [LinearOrder K] (ops : Numerico T)
    (clave : T → K) (s : SensorTemperatura T) (hcons : s.historial.Consistente)
    (hmas : 1 < s.obtenerNumeroLecturas)
    (hord : ops.OrdenadoPor clave s.historial.cabeza) :
    ∃ pre post, s.historial.cabeza = pre ++ (s.historial.eliminarMinimo ops).1 :: post ∧
      (∀ y ∈ pre, clave (s.historial.eliminarMinimo ops).1 < clave y) ∧
      (∀ x ∈ s.historial.cabeza, clave (s.historial.eliminarMinimo ops).1 ≤ clave x) ∧
      pre ++ post ≠ [] ∧
      s.procesarLectura ops
        = (ReporteTemperatura.minimoEliminado (s.historial.eliminarMinimo ops).1
            (ops.divide ((pre ++ post).foldl ops.suma ops.cero)
              (ops.deEntero ((pre ++ post).length : Int))),
           { s with historial := ⟨pre ++ post, s.historial.tamano - 1⟩ }) := by
  unfold SensorTemperatura.obtenerNumeroLecturas ListaSensor.obtenerTamano at hmas
  unfold ListaSensor.Consistente at hcons
  have hlen : 1 < s.historial.cabeza.length := by
    rw [hcons] at hmas
    exact_mod_cast hmas
  have hne : s.historial.estaVacia = false :=
    (estaVacia_eq_false_iff _).2 (by intro h; rw [h] at hlen; simp at hlen)
  obtain ⟨pre, post, hsplit, hpre, hmin, hres⟩ :=
    eliminarMinimo_ordenado ops clave s.historial hne hord
  have hlen2 : (pre ++ post).length + 1 = s.historial.cabeza.length := by
    conv_rhs => rw [hsplit]
    simp
    omega
  have hne2 : pre ++ post ≠ [] := by
    intro h
    rw [h] at hlen2
    simp at hlen2
    omega
  refine ⟨pre, post, hsplit, hpre, hmin, hne2, ?_⟩
  have h1 : ¬ s.historial.obtenerTamano = 1 := by
    unfold ListaSensor.obtenerTamano
    omega
  have h2 : (ListaSensor.estaVacia
      (⟨pre ++ post, s.historial.tamano - 1⟩ : ListaSensor T)) = false :=
    (estaVacia_eq_false_iff _).2 hne2
  have htam : s.historial.tamano - 1 = ((pre ++ post).length : Int) := by
    rw [hcons]
    omega
  have hprom : ListaSensor.calcularPromedio ops
      (⟨pre ++ post, s.historial.tamano - 1⟩ : ListaSensor T)
      = ops.divide ((pre ++ post).foldl ops.suma ops.cero)
          (ops.deEntero ((pre ++ post).length : Int)) := by
    unfold ListaSensor.calcularPromedio
    rw [h2, sumarDesde_eq_foldl]
    simp [ListaSensor.obtenerTamano, htam]
  unfold SensorTemperatura.procesarLectura
  rw [hne]
  simp only [h1, hres, h2, hprom]
  simp

set_option maxRecDepth 10000 in
/-- C9, counterexample. A `float` temperature sensor with the two readings
`[NaN, 2.0]` reports NaN as the extracted minimum, although `2.0` is the lowest
reading, removes no reading, and still counts 2 readings afterwards. -/
theorem procesarLectura_con_nan_no_elimina :
    1 < (SensorTemperatura.mk []
      (ListaSensor.deLecturas [Flotante.nan, Flotante.deEntero 2])).obtenerNumeroLecturas ∧
    (SensorTemperatura.procesarLectura flotante32
      ⟨[], ListaSensor.deLecturas [Flotante.nan, Flotante.deEntero 2]⟩).1
      = ReporteTemperatura.minimoEliminado Flotante.nan Flotante.nan ∧
    (SensorTemperatura.procesarLectura flotante32
      ⟨[], ListaSensor.deLecturas [Flotante.nan, Flotante.deEntero 2]⟩).2.historial
      = ListaSensor.deLecturas [Flotante.nan, Flotante.deEntero 2] ∧
    (SensorTemperatura.procesarLectura flotante32
      ⟨[], ListaSensor.deLecturas [Flotante.nan, Flotante.deEntero 2]⟩).2.obtenerNumeroLecturas
      = 2 := by
  decide

set_option maxRecDepth 10000 in
/-- C9, amended. For a temperature sensor with more than one reading, on which
`==` and `<` are the comparisons of a total order (for `float`: no reading is
NaN), `procesarLectura` removes exactly one reading, the first occurrence of the
lowest one, so the reading count drops by exactly 1; it reports the extracted
minimum together with the average of the remaining readings (added from left to
right and divided by their number, under the arithmetic of `T`, for `float` with
its rounding).  For the `float` readings `[5.0, 1.0, 3.0]` it extracts `1.0`,
reports the remaining average `4.0`, and the count afterwards is `2`. -/
theorem procesarLectura_temperatura_elimina_minimo :
    (∀ (T K : Type) [LinearOrder K] (ops : Numerico T) (clave : T → K)
      (s : SensorTemperatura T),
      s.historial.Consistente → 1 < s.obtenerNumeroLecturas →
      ops.OrdenadoPor clave s.historial.cabeza →
      ∃ (m : T) (pre post : List T),
        s.historial.cabeza = pre ++ m :: post ∧
        (∀ y ∈ pre, ops.igual y m = false) ∧
        (∀ x ∈ s.historial.cabeza, ops.menor m x = true ∨ ops.igual m x = true) ∧
        (s.procesarLectura ops).1
          = ReporteTemperatura.minimoEliminado m
              (ops.divide ((pre ++ post).foldl ops.suma ops.cero)
                (ops.deEntero ((pre ++ post).length : Int))) ∧
        (s.procesarLectura ops).2.historial.cabeza = pre ++ post ∧
        (s.procesarLectura ops).2.nombre = s.nombre ∧
        (s.procesarLectura ops).2.obtenerNumeroLecturas = s.obtenerNumeroLecturas - 1) ∧
    (∀ nombre : List Char,
      SensorTemperatura.procesarLectura flotante32
        ⟨nombre, ListaSensor.deLecturas
          [Flotante.deEntero 5, Flotante.deEntero 1, Flotante.deEntero 3]⟩
        = (ReporteTemperatura.minimoEliminado (Flotante.deEntero 1) (Flotante.deEntero 4),
           ⟨nombre, ListaSensor.deLecturas [Flotante.deEntero 5, Flotante.deEntero 3]⟩) ∧
      (SensorTemperatura.procesarLectura flotante32
        ⟨nombre, ListaSensor.deLecturas
          [Flotante.deEntero 5, Flotante.deEntero 1, Flotante.deEntero 3]⟩).2.obtenerNumeroLecturas
        = 2) ∧
    Flotante.deEntero 1 = Flotante.finito false unidadesDeUno ∧
    Flotante.deEntero 4 = Flotante.finito false (4 * unidadesDeUno) := by
  refine ⟨?_, ?_, by decide, by decide⟩
  · intro T K _ ops clave s hcons hmas hord
    obtain ⟨pre, post, hsplit, hpre, hmin, _, hproc⟩ :=
      procesarLectura_ordenado ops clave s hcons hmas hord
    have hm : (s.historial.eliminarMinimo ops).1 ∈ s.historial.cabeza := by
      rw [hsplit]
      simp
    refine ⟨(s.historial.eliminarMinimo ops).1, pre, post, hsplit, ?_, ?_, ?_⟩
    · intro y hy
      have hyl : y ∈ s.historial.cabeza := by
        rw [hsplit]
        exact List.mem_append_left _ hy
      cases hig : ops.igual y (s.historial.eliminarMinimo ops).1 with
      | false => rfl
      | true =>
        have := (hord y hyl _ hm).1.1 hig
        exact absurd (hpre y hy) (by rw [this]; exact lt_irrefl _)
    · intro x hx
      rcases lt_or_eq_of_le (hmin x hx) with h | h
      · exact Or.inl ((hord _ hm x hx).2.2 h)
      · exact Or.inr ((hord _ hm x hx).1.2 h)
    · rw [hproc]
      exact ⟨rfl, rfl, rfl, rfl⟩
  · intro nombre
    have e : SensorTemperatura.procesarLectura flotante32
        ⟨nombre, ListaSensor.deLecturas
          [Flotante.deEntero 5, Flotante.deEntero 1, Flotante.deEntero 3]⟩
        = (ReporteTemperatura.minimoEliminado (Flotante.deEntero 1) (Flotante.deEntero 4),
           ⟨nombre, ListaSensor.deLecturas [Flotante.deEntero 5, Flotante.deEntero 3]⟩) := by
      have h0 : (ListaSensor.deLecturas
          [Flotante.deEntero 5, Flotante.deEntero 1, Flotante.deEntero 3]).estaVacia
          = false := by decide
      have h1 : (ListaSensor.deLecturas
          [Flotante.deEntero 5, Flotante.deEntero 1, Flotante.deEntero 3]).obtenerTamano
          = 3 := by decide
      have h2 : (ListaSensor.deLecturas
          [Flotante.deEntero 5, Flotante.deEntero 1, Flotante.deEntero 3]).eliminarMinimo
          flotante32
          = (Flotante.deEntero 1,
             ListaSensor.deLecturas [Flotante.deEntero 5, Flotante.deEntero 3]) := by decide
      have h3 : (ListaSensor.deLecturas
          [Flotante.deEntero 5, Flotante.deEntero 3]).estaVacia = false := by decide
      have h4 : (ListaSensor.deLecturas
          [Flotante.deEntero 5, Flotante.deEntero 3]).calcularPromedio flotante32
          = Flotante.deEntero 4 := by decide
      unfold SensorTemperatura.procesarLectura
      simp only [h0, h1, h2, h3, h4]
      simp
    refine ⟨e, ?_⟩
    rw [e]
    show (ListaSensor.deLecturas
      [Flotante.deEntero 5, Flotante.deEntero 3]).obtenerTamano = 2
    decide

set_option maxRecDepth 10000 in
/-- Witness for C9 as amended on the `float` history `[5.0, 1.0, 3.0]`, which
holds no NaN: the general statement applies. -/
theorem procesarLectura_temperatura_elimina_minimo_witness :
    (ListaSensor.deLecturas
      [Flotante.deEntero 5, Flotante.deEntero 1, Flotante.deEntero 3]).Consistente ∧
    1 < (SensorTemperatura.mk [] (ListaSensor.deLecturas
      [Flotante.deEntero 5, Flotante.deEntero 1, Flotante.deEntero 3])).obtenerNumeroLecturas ∧
    flotante32.OrdenadoPor Flotante.clave (ListaSensor.deLecturas
      [Flotante.deEntero 5, Flotante.deEntero 1, Flotante.deEntero 3]).cabeza ∧
    ∃ (m : Flotante) (pre post : List Flotante),
      (ListaSensor.deLecturas
        [Flotante.deEntero 5, Flotante.deEntero 1, Flotante.deEntero 3]).cabeza
        = pre ++ m :: post ∧
      ((SensorTemperatura.mk [] (ListaSensor.deLecturas
        [Flotante.deEntero 5, Flotante.deEntero 1,
          Flotante.deEntero 3])).procesarLectura flotante32).2.obtenerNumeroLecturas
        = 3 - 1 :=
  ⟨by decide, by decide, flotante32_ordenado _ (by decide),
    (procesarLectura_temperatura_elimina_minimo.1 Flotante Int flotante32 Flotante.clave
      ⟨[], ListaSensor.deLecturas
        [Flotante.deEntero 5, Flotante.deEntero 1, Flotante.deEntero 3]⟩
      (by decide) (by decide) (flotante32_ordenado _ (by decide))).imp
      (fun _ h => h.imp (fun _ h2 => h2.imp (fun _ h3 => ⟨h3.1, h3.2.2.2.2.2.2⟩)))⟩

/-- C10, counterexample. A pressure sensor with readings `[2147483647, 1]` reports
the average `-1073741824`, because the running sum wraps, while the truncating
integer average of the two readings is `1073741824`. -/
theorem procesarLectura_presion_desborda :
    (SensorPresion.mk [] (ListaSensor.deLecturas [2147483647, 1])).tieneLecturas = true ∧
    (SensorPresion.mk [] (ListaSensor.deLecturas [2147483647, 1])).procesarLectura.1
      = ReportePresion.promedio (-1073741824) 2 ∧
    Int.tdiv ([2147483647, 1] : List Int).sum ([2147483647, 1] : List Int).length
      = 1073741824 := by
  decide

/-- C10, amended. `SensorPresion::procesarLectura` never changes the sensor (same
readings in the same order, same count).  With at least one reading, when the
running sum of the readings stays in the 32-bit `int` range, it reports the exact
sum divided by the number of readings, truncated toward zero, together with that
number.  For readings `[10, 20, 30]` it reports `20` and the count stays `3`. -/
theorem procesarLectura_presion_no_modifica :
    (∀ s : SensorPresion, s.procesarLectura.2 = s) ∧
    (∀ s : SensorPresion, s.tieneLecturas = true → s.historial.Consistente →
      sumaEnRango 0 s.historial.cabeza = true →
      s.procesarLectura.1
        = ReportePresion.promedio
            (Int.tdiv s.historial.cabeza.sum s.historial.cabeza.length)
            s.historial.cabeza.length) ∧
    (∀ nombre : List Char,
      SensorPresion.procesarLectura ⟨nombre, ListaSensor.deLecturas [10, 20, 30]⟩
        = (ReportePresion.promedio 20 3, ⟨nombre, ListaSensor.deLecturas [10, 20, 30]⟩) ∧
      (SensorPresion.procesarLectura
        ⟨nombre, ListaSensor.deLecturas [10, 20, 30]⟩).2.obtenerNumeroLecturas = 3) := by
  have hframe : ∀ s : SensorPresion, s.procesarLectura.2 = s := by
    intro s
    unfold SensorPresion.procesarLectura
    split_ifs <;> rfl
  have hrep : ∀ s : SensorPresion, s.tieneLecturas = true →
      s.procesarLectura.1
        = ReportePresion.promedio (s.historial.calcularPromedio entero32)
            s.obtenerNumeroLecturas := by
    intro s ht
    unfold SensorPresion.tieneLecturas at ht
    have hne : s.historial.estaVacia = false := by simpa using ht
    unfold SensorPresion.procesarLectura SensorPresion.obtenerNumeroLecturas
    rw [hne]
    simp
  refine ⟨hframe, ?_, ?_⟩
  · intro s ht hcons hr
    have hne : s.historial.estaVacia = false := by
      unfold SensorPresion.tieneLecturas at ht
      simpa using ht
    rw [hrep s ht, calcularPromedio_entero32 _ hne hcons hr]
    unfold SensorPresion.obtenerNumeroLecturas ListaSensor.obtenerTamano
    unfold ListaSensor.Consistente at hcons
    rw [hcons]
  · intro nombre
    have e : SensorPresion.procesarLectura ⟨nombre, ListaSensor.deLecturas [10, 20, 30]⟩
        = (ReportePresion.promedio 20 3, ⟨nombre, ListaSensor.deLecturas [10, 20, 30]⟩) := by
      unfold SensorPresion.procesarLectura
      have h1 : (ListaSensor.deLecturas [10, 20, 30] : ListaSensor Int).estaVacia = false := by
        decide
      have h2 : (ListaSensor.deLecturas [10, 20, 30]).calcularPromedio entero32 = 20 := by
        decide
      have h3 : (ListaSensor.deLecturas [10, 20, 30] : ListaSensor Int).obtenerTamano = 3 := by
        decide
      simp only [h1, h2, h3]
      simp
    refine ⟨e, ?_⟩
    rw [e]
    show (ListaSensor.deLecturas [10, 20, 30] : ListaSensor Int).obtenerTamano = 3
    decide

/-- Witness for C10 as amended on the pressure history `[10, 20, 31]`: sum `61`,
three readings, reported average `20`. -/
theorem procesarLectura_presion_no_modifica_witness :
    (SensorPresion.mk [] (ListaSensor.deLecturas [10, 20, 31])).tieneLecturas = true ∧
    (ListaSensor.deLecturas [10, 20, 31] : ListaSensor Int).Consistente ∧
    sumaEnRango 0 (ListaSensor.deLecturas [10, 20, 31] : ListaSensor Int).cabeza = true ∧
    (SensorPresion.mk [] (ListaSensor.deLecturas [10, 20, 31])).procesarLectura.1
      = ReportePresion.promedio (Int.tdiv 61 3) 3 :=
  ⟨by decide, by decide, by decide,
    procesarLectura_presion_no_modifica.2.1 ⟨[], ListaSensor.deLecturas [10, 20, 31]⟩
      (by decide) (by decide) (by decide)⟩

/-! ## Auxiliary facts about C strings and the registry -/

theorem char_eq_of_toNat_eq (a b : Char) (h : a.toNat = b.toNat) : a = b := by
  apply Char.ext
  apply UInt32.ext
  exact h

theorem strncpy_length (dest src : List Char) (n : Nat) :
    (strncpy dest src n).length = dest.length := by
  induction n generalizing dest src with
  | zero => simp [strncpy]
  | succ n ih =>
    cases dest with
    | nil => simp [strncpy]
    | cons d dresto =>
      cases src with
      | nil => simp [strncpy, ih]
      | cons c sresto =>
        by_cases hc : c = NUL
        · simp [strncpy, hc, ih]
        · simp [strncpy, hc, ih]

theorem leerCadena_strncpy_set (n : Nat) (dest src : List Char) (h : n < dest.length) :
    leerCadena ((strncpy dest src n).set n NUL) = (leerCadena src).take n := by
  induction n generalizing dest src with
  | zero =>
    cases dest with
    | nil => simp at h
    | cons d dresto => simp [strncpy, leerCadena]
  | succ n ih =>
    cases dest with
    | nil => simp at h
    | cons d dresto =>
      have h2 : n < dresto.length := by simpa using h
      cases src with
      | nil => simp [strncpy, leerCadena]
      | cons c sresto =>
        by_cases hc : c = NUL
        · simp [strncpy, leerCadena, hc]
        · simp [strncpy, leerCadena, hc, ih dresto sresto h2]

theorem leerCadena_strcpy (dest src : List Char) (h : (leerCadena src).length < dest.length) :
    leerCadena (strcpy dest src) = leerCadena src := by
  induction src generalizing dest with
  | nil =>
    cases dest with
    | nil => simp [leerCadena] at h
    | cons d dresto => simp [strcpy, leerCadena]
  | cons c sresto ih =>
    cases dest with
    | nil => simp at h
    | cons d dresto =>
      by_cases hc : c = NUL
      · simp [strcpy, leerCadena, hc]
      · have h2 : (leerCadena sresto).length < dresto.length := by
          simpa [leerCadena, hc] using h
        simp [strcpy, leerCadena, hc, ih dresto h2]

theorem strcmp_eq_zero_iff (a b : List Char) :
    strcmp a b = 0 ↔ leerCadena a = leerCadena b := by
  induction a generalizing b with
  | nil =>
    cases b with
    | nil => simp [strcmp, leerCadena]
    | cons y bresto =>
      by_cases hy : y = NUL
      · simp [strcmp, leerCadena, hy]
      · have hne : (NUL.toNat : Int) - y.toNat ≠ 0 := by
          intro h
          apply hy
          apply char_eq_of_toNat_eq
          omega
        simp [strcmp, leerCadena, hy, hne]
  | cons x aresto ih =>
    cases b with
    | nil =>
      by_cases hx : x = NUL
      · simp [strcmp, leerCadena, hx]
      · have hne : (x.toNat : Int) - NUL.toNat ≠ 0 := by
          intro h
          apply hx
          apply char_eq_of_toNat_eq
          omega
        simp [strcmp, leerCadena, hx, hne]
    | cons y bresto =>
      by_cases hxy : x = y
      · subst hxy
        by_cases hx : x = NUL
        · simp [strcmp, leerCadena, hx]
        · simp [strcmp, leerCadena, hx, ih bresto]
      · have hne : (x.toNat : Int) - y.toNat ≠ 0 := by
          intro h
          apply hxy
          apply char_eq_of_toNat_eq
          omega
        by_cases hx : x = NUL
        · subst hx
          have hy : ¬ y = NUL := fun e => hxy e.symm
          simp [strcmp, leerCadena, hxy, hne, hy]
        · by_cases hy : y = NUL
          · subst hy
            simp [strcmp, leerCadena, hxy, hne, hx]
          · simp [strcmp, leerCadena, hxy, hne, hx, hy]

theorem enlazarSensorAlFinal_eq (d : Sensor T) (resto : List (Sensor T)) (sensor : Sensor T) :
    enlazarSensorAlFinal d resto sensor = d :: (resto ++ [sensor]) := by
  induction resto generalizing d with
  | nil => rfl
  | cons s resto ih => simp [enlazarSensorAlFinal, ih]

theorem insertarSensor_cabeza (g : ListaGestion T) (sensor : Sensor T) :
    (g.insertarSensor sensor).cabeza = g.cabeza ++ [sensor] := by
  unfold ListaGestion.insertarSensor
  cases h : g.cabeza with
  | nil => rfl
  | cons d resto => simp [enlazarSensorAlFinal_eq]

theorem foldl_insertarSensor_cabeza (g : ListaGestion T) (sensores : List (Sensor T)) :
    (sensores.foldl ListaGestion.insertarSensor g).cabeza = g.cabeza ++ sensores := by
  induction sensores generalizing g with
  | nil => simp
  | cons s resto ih => simp [ih, insertarSensor_cabeza]

theorem deSensores_cabeza (sensores : List (Sensor T)) :
    (ListaGestion.deSensores sensores).cabeza = sensores := by
  unfold ListaGestion.deSensores
  rw [foldl_insertarSensor_cabeza]
  rfl

theorem buscarSensorDesde_none (nombre : List Char) (nodos : List (Sensor T)) (i : Nat) :
    buscarSensorDesde nombre nodos i = none ↔
      ∀ s ∈ nodos, leerCadena s.obtenerNombre ≠ leerCadena nombre := by
  induction nodos generalizing i with
  | nil => simp [buscarSensorDesde]
  | cons s resto ih =>
    by_cases h : strcmp s.obtenerNombre nombre = 0
    · have h2 := (strcmp_eq_zero_iff _ _).1 h
      simp [buscarSensorDesde, h, h2]
    · have h2 : leerCadena s.obtenerNombre ≠ leerCadena nombre :=
        fun e => h ((strcmp_eq_zero_iff _ _).2 e)
      simp [buscarSensorDesde, h, h2, ih]

theorem buscarSensorDesde_some (nombre : List Char) (nodos : List (Sensor T)) (i k : Nat)
    (h : buscarSensorDesde nombre nodos i = some k) :
    i ≤ k ∧ ∃ s, nodos[k - i]? = some s ∧ leerCadena s.obtenerNombre = leerCadena nombre ∧
      ∀ j s2, j < k - i → nodos[j]? = some s2 →
        leerCadena s2.obtenerNombre ≠ leerCadena nombre := by
  induction nodos generalizing i with
  | nil => simp [buscarSensorDesde] at h
  | cons s resto ih =>
    by_cases hs : strcmp s.obtenerNombre nombre = 0
    · simp only [buscarSensorDesde, hs, if_true, Option.some.injEq] at h
      subst h
      refine ⟨le_refl _, s, by simp, (strcmp_eq_zero_iff _ _).1 hs, ?_⟩
      intro j s2 hj
      simp at hj
    · simp only [buscarSensorDesde, hs, if_false] at h
      obtain ⟨hle, s1, hs1, hn1, hprev⟩ := ih (i + 1) h
      have hk : k - i = (k - (i + 1)) + 1 := by omega
      refine ⟨by omega, s1, ?_, hn1, ?_⟩
      · rw [hk, List.getElem?_cons_succ]
        exact hs1
      · intro j s2 hj hget
        cases j with
        | zero =>
          simp only [List.getElem?_cons_zero, Option.some.injEq] at hget
          subst hget
          exact fun e => hs ((strcmp_eq_zero_iff _ _).2 e)
        | succ j =>
          rw [List.getElem?_cons_succ] at hget
          exact hprev j s2 (by omega) hget

theorem procesarDesde_eq (ops : Numerico T) (nodos : List (Sensor T)) :
    procesarDesde ops nodos
      = (nodos.map (fun s => (s.procesarLectura ops).1), nodos.map (fun s => (s.procesarLectura ops).2)) := by
  induction nodos with
  | nil => rfl
  | cons s resto ih => simp [procesarDesde, ih]

theorem mostrarDesde_length (contador : Int) (nodos : List (Sensor T)) :
    (mostrarDesde contador nodos).length = nodos.length := by
  induction nodos generalizing contador with
  | nil => rfl
  | cons s resto ih => simp [mostrarDesde, ih]

theorem mostrarDesde_getElem? (contador : Int) (nodos : List (Sensor T)) (i : Nat) (s : Sensor T)
    (h : nodos[i]? = some s) :
    (mostrarDesde contador nodos)[i]? = some (contador + i, leerCadena s.obtenerNombre) := by
  induction nodos generalizing contador i with
  | nil => simp at h
  | cons d resto ih =>
    cases i with
    | zero =>
      simp only [List.getElem?_cons_zero, Option.some.injEq] at h
      subst h
      simp [mostrarDesde]
    | succ i =>
      rw [List.getElem?_cons_succ] at h
      simp only [mostrarDesde, List.getElem?_cons_succ]
      rw [ih (contador + 1) i h]
      push_cast
      congr 2
      ring


/-! ## `procesarLectura` on short histories -/

/-- C12. For a sensor of either kind with no readings, `procesarLectura` takes the
branch that reports that there is nothing to process, returns before any call of
`calcularPromedio` or `eliminarMinimo`, and leaves the sensor as it was, with
reading count 0. -/
theorem procesarLectura_sin_lecturas :
    (∀ (T : Type) (ops : Numerico T) (s : SensorTemperatura T),
      s.tieneLecturas = false → s.obtenerNumeroLecturas = 0 →
      s.procesarLectura ops = (ReporteTemperatura.sinLecturas, s) ∧
      (s.procesarLectura ops).2.obtenerNumeroLecturas = 0) ∧
    (∀ s : SensorPresion,
      s.tieneLecturas = false → s.obtenerNumeroLecturas = 0 →
      s.procesarLectura = (ReportePresion.sinLecturas, s) ∧
      s.procesarLectura.2.obtenerNumeroLecturas = 0) := by
  constructor
  · intro T ops s ht h0
    have hv : s.historial.estaVacia = true := by
      unfold SensorTemperatura.tieneLecturas at ht
      simpa using ht
    have hproc : s.procesarLectura ops = (ReporteTemperatura.sinLecturas, s) := by
      unfold SensorTemperatura.procesarLectura
      simp [hv]
    rw [hproc]
    exact ⟨rfl, h0⟩
  · intro s ht h0
    have hv : s.historial.estaVacia = true := by
      unfold SensorPresion.tieneLecturas at ht
      simpa using ht
    have hproc : s.procesarLectura = (ReportePresion.sinLecturas, s) := by
      unfold SensorPresion.procesarLectura
      simp [hv]
    rw [hproc]
    exact ⟨rfl, h0⟩

/-- Witness for C12 on a freshly constructed pressure sensor named "P2". -/
theorem procesarLectura_sin_lecturas_witness :
    (SensorPresion.conNombre (List.replicate 50 'x') "P2".toList).tieneLecturas = false ∧
    (SensorPresion.conNombre (List.replicate 50 'x') "P2".toList).obtenerNumeroLecturas = 0 ∧
    (SensorPresion.conNombre (List.replicate 50 'x') "P2".toList).procesarLectura.1
      = ReportePresion.sinLecturas :=
  ⟨by decide, by decide,
    congrArg Prod.fst
      (procesarLectura_sin_lecturas.2
        (SensorPresion.conNombre (List.replicate 50 'x') "P2".toList)
        (by decide) (by decide)).1⟩

/-- C20. In `SensorTemperatura::procesarLectura`, for a history with more than one
reading the history is not empty after `eliminarMinimo`, so the branch reporting
a single reading as processed and eliminated is not the one taken, whatever the
comparisons of `T` answer. -/
theorem procesarLectura_temperatura_rama_inalcanzable (ops : Numerico T)
    (s : SensorTemperatura T) (hcons : s.historial.Consistente)
    (hmas : 1 < s.obtenerNumeroLecturas) :
    (s.historial.eliminarMinimo ops).2.estaVacia = false ∧
    ∀ m : T, (s.procesarLectura ops).1 ≠ ReporteTemperatura.unicaEliminada m := by
  unfold SensorTemperatura.obtenerNumeroLecturas ListaSensor.obtenerTamano at hmas
  have hlen : 1 < s.historial.cabeza.length := by
    unfold ListaSensor.Consistente at hcons
    rw [hcons] at hmas
    exact_mod_cast hmas
  have hv : (s.historial.eliminarMinimo ops).2.estaVacia = false := by
    rw [estaVacia_eq_false_iff]
    intro h
    have hl := eliminarMinimo_longitud ops s.historial
    rw [h] at hl
    simp at hl
    omega
  refine ⟨hv, ?_⟩
  intro m
  have hne : s.historial.estaVacia = false :=
    (estaVacia_eq_false_iff _).2 (by intro h; rw [h] at hlen; simp at hlen)
  have h1 : ¬ s.historial.obtenerTamano = 1 := by
    unfold ListaSensor.obtenerTamano
    omega
  unfold SensorTemperatura.procesarLectura
  simp [hne, h1, hv]

/-- Witness for C20 on the `int`-valued history `[4, 4]`. -/
theorem procesarLectura_temperatura_rama_inalcanzable_witness :
    (ListaSensor.deLecturas [4, 4] : ListaSensor Int).Consistente ∧
    1 < (SensorTemperatura.mk [] (ListaSensor.deLecturas [4, 4] :
      ListaSensor Int)).obtenerNumeroLecturas ∧
    ((ListaSensor.deLecturas [4, 4] : ListaSensor Int).eliminarMinimo entero32).2.estaVacia
      = false :=
  ⟨by decide, by decide,
    (procesarLectura_temperatura_rama_inalcanzable entero32
      ⟨[], ListaSensor.deLecturas [4, 4]⟩ (by decide) (by decide)).1⟩

/-! ## `limpiar` -/

/-- C19. `limpiar` leaves the list empty with count 0, and applying it twice gives
the same state as applying it once. -/
theorem limpiar_vacia_e_idempotente (l : ListaSensor T) :
    l.limpiar.cabeza = [] ∧ l.limpiar.estaVacia = true ∧ l.limpiar.obtenerTamano = 0 ∧
    l.limpiar.limpiar = l.limpiar := by
  have h : l.limpiar = ⟨[], 0⟩ := by
    unfold ListaSensor.limpiar
    rw [liberarDesde_eq]
  rw [h]
  exact ⟨rfl, rfl, rfl, rfl⟩


/-! ## The registry -/

/-- C13. `buscarSensor(n)` returns `nullptr` exactly when no sensor of the registry
has the name `n`; otherwise it returns the sensor of the earliest node whose name
equals `n` as a C string, so no node before the returned one has that name.  When
several sensors share the name, the one inserted first is returned. -/
theorem buscarSensor_primera_coincidencia (g : ListaGestion T) (n : List Char) :
    (g.buscarSensor n = none ↔
      ∀ s ∈ g.cabeza, leerCadena s.obtenerNombre ≠ leerCadena n) ∧
    (∀ k, g.buscarSensor n = some k →
      ∃ s, g.cabeza[k]? = some s ∧ leerCadena s.obtenerNombre = leerCadena n ∧
        ∀ j s2, j < k → g.cabeza[j]? = some s2 →
          leerCadena s2.obtenerNombre ≠ leerCadena n) ∧
    (∀ sensores : List (Sensor T), (ListaGestion.deSensores sensores).cabeza = sensores) := by
  refine ⟨buscarSensorDesde_none n g.cabeza 0, ?_, deSensores_cabeza⟩
  intro k hk
  obtain ⟨_, s, hs, hn, hprev⟩ := buscarSensorDesde_some n g.cabeza 0 k hk
  exact ⟨s, by simpa using hs, hn, fun j s2 hj => hprev j s2 (by simpa using hj)⟩

/-- C14. `insertarSensor` is total and links the new sensor after the last node, so
after any sequence of insertions on a new registry the chain holds the sensors in
insertion order, and `mostrarTodosSensores` prints one line per sensor, in that
order, line `i` (from 0) carrying the number `i + 1` and the name of sensor `i`.
Inserting "A" and then "B" lists `(1, "A")`, `(2, "B")`. -/
theorem mostrarTodosSensores_en_orden :
    (∀ (T : Type) (g : ListaGestion T) (sensor : Sensor T),
      (g.insertarSensor sensor).cabeza = g.cabeza ++ [sensor]) ∧
    (∀ (T : Type) (sensores : List (Sensor T)),
      (ListaGestion.deSensores sensores).cabeza = sensores ∧
      (ListaGestion.deSensores sensores).mostrarTodosSensores.entradas.length
        = sensores.length ∧
      ∀ (i : Nat) (s : Sensor T), sensores[i]? = some s →
        (ListaGestion.deSensores sensores).mostrarTodosSensores.entradas[i]?
          = some ((i : Int) + 1, leerCadena s.obtenerNombre)) ∧
    (∀ b1 b2 : List Char, b1.length = capacidadNombre → b2.length = capacidadNombre →
      (ListaGestion.deSensores
        [(Sensor.temperatura (SensorTemperatura.conNombre b1 "A".toList) : Sensor ℚ),
          Sensor.presion (SensorPresion.conNombre b2 "B".toList)]).mostrarTodosSensores
        = Listado.lineas [(1, "A".toList), (2, "B".toList)]) := by
  refine ⟨fun T g sensor => insertarSensor_cabeza g sensor, ?_, ?_⟩
  · intro T sensores
    have hent : (ListaGestion.deSensores sensores).mostrarTodosSensores.entradas
        = mostrarDesde 1 sensores := by
      unfold ListaGestion.mostrarTodosSensores
      rw [deSensores_cabeza]
      cases sensores <;> rfl
    refine ⟨deSensores_cabeza sensores, ?_, ?_⟩
    · rw [hent, mostrarDesde_length]
    · intro i s hs
      rw [hent, mostrarDesde_getElem? 1 sensores i s hs, add_comm]
  · intro b1 b2 h1 h2
    have e1 : leerCadena (SensorBase.conNombre b1 "A".toList) = "A".toList := by
      unfold SensorBase.conNombre
      rw [leerCadena_strncpy_set _ _ _ (by rw [h1]; decide)]
      decide
    have e2 : leerCadena (SensorBase.conNombre b2 "B".toList) = "B".toList := by
      unfold SensorBase.conNombre
      rw [leerCadena_strncpy_set _ _ _ (by rw [h2]; decide)]
      decide
    simp only [ListaGestion.deSensores, List.foldl, ListaGestion.insertarSensor,
      ListaGestion.nueva, enlazarSensorAlFinal, ListaGestion.mostrarTodosSensores,
      mostrarDesde, Sensor.obtenerNombre, SensorBase.obtenerNombre,
      SensorTemperatura.conNombre, SensorPresion.conNombre, e1, e2]
    rfl

/-- Witness for C14: the third insertion of a sensor named "C" is listed as
line 3. -/
theorem mostrarTodosSensores_en_orden_witness :
    ([Sensor.presion (SensorPresion.conNombre (List.replicate 50 'x') "A".toList),
      Sensor.presion (SensorPresion.conNombre (List.replicate 50 'x') "B".toList),
      (Sensor.presion (SensorPresion.conNombre (List.replicate 50 'x') "C".toList) :
        Sensor Int)][2]?
      = some (Sensor.presion (SensorPresion.conNombre (List.replicate 50 'x') "C".toList))) ∧
    (ListaGestion.deSensores
      [Sensor.presion (SensorPresion.conNombre (List.replicate 50 'x') "A".toList),
        Sensor.presion (SensorPresion.conNombre (List.replicate 50 'x') "B".toList),
        (Sensor.presion (SensorPresion.conNombre (List.replicate 50 'x') "C".toList) :
          Sensor Int)]).mostrarTodosSensores.entradas[2]?
      = some (((2 : Nat) : Int) + 1,
          leerCadena (Sensor.presion (SensorPresion.conNombre (List.replicate 50 'x')
            "C".toList) : Sensor Int).obtenerNombre) :=
  ⟨rfl, (mostrarTodosSensores_en_orden.2.1 Int _).2.2 2 _ rfl⟩


/-- C15. `ejecutarProcesamientoPolimorfico` calls `procesarLectura` once on every
sensor of the chain, from the first node to the last, each call dispatched to
the class of the sensor, so the registry afterwards is the element-wise result
of processing and the reports come in the order of the chain.  On a registry
without sensors it changes nothing and reports that there are no sensors. -/
theorem ejecutarProcesamientoPolimorfico_procesa_cada_sensor
    (ops : Numerico T) (g : ListaGestion T) :
    (g.ejecutarProcesamientoPolimorfico ops).2.cabeza
      = g.cabeza.map (fun s => (s.procesarLectura ops).2) ∧
    (g.estaVacia = false →
      (g.ejecutarProcesamientoPolimorfico ops).1
        = ReporteGestion.procesados (g.cabeza.map (fun s => (s.procesarLectura ops).1))) ∧
    (g.estaVacia = true →
      g.ejecutarProcesamientoPolimorfico ops = (ReporteGestion.sinSensores, g)) ∧
    (∀ s : SensorTemperatura T,
      (Sensor.temperatura s).procesarLectura ops
        = (ReporteSensor.temperatura (s.procesarLectura ops).1,
            Sensor.temperatura (s.procesarLectura ops).2)) ∧
    (∀ s : SensorPresion,
      (Sensor.presion s : Sensor T).procesarLectura ops
        = (ReporteSensor.presion s.procesarLectura.1,
            Sensor.presion s.procesarLectura.2)) := by
  refine ⟨?_, ?_, ?_, fun _ => rfl, fun _ => rfl⟩
  · unfold ListaGestion.ejecutarProcesamientoPolimorfico
    cases h : g.cabeza with
    | nil => simp [h]
    | cons s resto => simp [procesarDesde_eq]
  · intro hv
    unfold ListaGestion.ejecutarProcesamientoPolimorfico
    cases h : g.cabeza with
    | nil => simp [ListaGestion.estaVacia, h] at hv
    | cons s resto => simp [procesarDesde_eq]
  · intro hv
    unfold ListaGestion.ejecutarProcesamientoPolimorfico
    cases h : g.cabeza with
    | nil => rfl
    | cons s resto => simp [ListaGestion.estaVacia, h] at hv


/-- Witness for C13: with sensors named "B", "A", "A" inserted in this order, the
lookup of "A" returns node 1, the earlier of the two, and the lookup of "Z"
returns `nullptr`. -/
theorem buscarSensor_primera_coincidencia_witness :
    (ListaGestion.deSensores
      [Sensor.presion (SensorPresion.conNombre (List.replicate 50 'x') "B".toList),
        Sensor.presion (SensorPresion.conNombre (List.replicate 50 'x') "A".toList),
        (Sensor.presion (SensorPresion.conNombre (List.replicate 50 'y') "A".toList) :
          Sensor Int)]).buscarSensor "A".toList = some 1 ∧
    (ListaGestion.deSensores
      [Sensor.presion (SensorPresion.conNombre (List.replicate 50 'x') "B".toList),
        Sensor.presion (SensorPresion.conNombre (List.replicate 50 'x') "A".toList),
        (Sensor.presion (SensorPresion.conNombre (List.replicate 50 'y') "A".toList) :
          Sensor Int)]).buscarSensor "Z".toList = none ∧
    ∀ s ∈ (ListaGestion.deSensores
      [Sensor.presion (SensorPresion.conNombre (List.replicate 50 'x') "B".toList),
        Sensor.presion (SensorPresion.conNombre (List.replicate 50 'x') "A".toList),
        (Sensor.presion (SensorPresion.conNombre (List.replicate 50 'y') "A".toList) :
          Sensor Int)]).cabeza,
      leerCadena s.obtenerNombre ≠ leerCadena "Z".toList :=
  ⟨by decide, by decide,
    (buscarSensor_primera_coincidencia _ "Z".toList).1.1 (by decide)⟩

/-! ## The sensor name -/

theorem conNombre_length (b s : List Char) :
    (SensorBase.conNombre b s).length = b.length := by
  unfold SensorBase.conNombre
  rw [List.length_set, strncpy_length]

theorem leerCadena_conNombre (b s : List Char) (hb : b.length = capacidadNombre) :
    leerCadena (SensorBase.conNombre b s) = (leerCadena s).take 49 := by
  unfold SensorBase.conNombre
  exact leerCadena_strncpy_set 49 b s (by rw [hb]; decide)

theorem conNombre_terminador (b s : List Char) (hb : b.length = capacidadNombre) :
    (SensorBase.conNombre b s)[49]? = some NUL := by
  unfold SensorBase.conNombre
  apply List.getElem?_set_self
  rw [strncpy_length, hb]
  decide

/-- C17. A sensor constructed with the name string `s` stores `s` itself when `s`
has at most 49 characters and the first 49 characters of `s` when it is longer;
the buffer keeps its 50 characters and its last one is the terminator, so the
stored name ends within the buffer.  `establecerNombre` does the same. -/
theorem nombre_truncado_a_49 (b s : List Char) (hb : b.length = capacidadNombre) :
    ((leerCadena s).length ≤ 49 →
      leerCadena (SensorBase.obtenerNombre (SensorBase.conNombre b s)) = leerCadena s) ∧
    (49 < (leerCadena s).length →
      leerCadena (SensorBase.obtenerNombre (SensorBase.conNombre b s))
        = (leerCadena s).take 49) ∧
    (SensorBase.conNombre b s).length = 50 ∧
    (SensorBase.conNombre b s)[49]? = some NUL ∧
    (leerCadena (SensorBase.obtenerNombre (SensorBase.conNombre b s))).length ≤ 49 ∧
    (∀ T : Type, (SensorTemperatura.conNombre b s : SensorTemperatura T).nombre
      = SensorBase.conNombre b s) ∧
    (SensorPresion.conNombre b s).nombre = SensorBase.conNombre b s ∧
    SensorBase.establecerNombre b s = SensorBase.conNombre b s := by
  have h := leerCadena_conNombre b s hb
  unfold SensorBase.obtenerNombre
  refine ⟨?_, fun _ => h, ?_, conNombre_terminador b s hb, ?_, fun _ => rfl, rfl, rfl⟩
  · intro hle
    rw [h, List.take_of_length_le hle]
  · rw [conNombre_length, hb]
    rfl
  · rw [h, List.length_take]
    omega

/-- Witness for C17: a name of 60 characters is cut to its first 49, a name of 4
characters is kept. -/
theorem nombre_truncado_a_49_witness :
    (List.replicate 50 'x').length = capacidadNombre ∧
    49 < (leerCadena (List.replicate 60 'a')).length ∧
    leerCadena (SensorBase.obtenerNombre
      (SensorBase.conNombre (List.replicate 50 'x') (List.replicate 60 'a')))
      = (leerCadena (List.replicate 60 'a')).take 49 ∧
    leerCadena (SensorBase.obtenerNombre
      (SensorBase.conNombre (List.replicate 50 'x') "Hola".toList)) = "Hola".toList :=
  ⟨by decide, by decide,
    (nombre_truncado_a_49 (List.replicate 50 'x') (List.replicate 60 'a') (by decide)).2.1
      (by decide),
    by decide⟩

theorem usoNombre_estado_length (b : List Char) (p : UsoNombre)
    (hb : b.length = capacidadNombre) : (p.estado b).length = capacidadNombre := by
  induction p with
  | base =>
    have : ∀ (d s : List Char), (strcpy d s).length = d.length := by
      intro d s
      induction s generalizing d with
      | nil => cases d <;> simp [strcpy]
      | cons c sresto ih =>
        cases d with
        | nil => simp [strcpy]
        | cons x dresto =>
          by_cases hc : c = NUL
          · simp [strcpy, hc]
          · simp [strcpy, hc, ih]
    simp only [UsoNombre.estado, SensorBase.porDefecto]
    rw [this, hb]
  | temperatura => simp only [UsoNombre.estado]; rw [conNombre_length, hb]
  | presion => simp only [UsoNombre.estado]; rw [conNombre_length, hb]
  | conNombre s => simp only [UsoNombre.estado]; rw [conNombre_length, hb]
  | establecerNombre p s ih =>
    simp only [UsoNombre.estado]
    show (SensorBase.conNombre (p.estado b) s).length = capacidadNombre
    rw [conNombre_length, ih]

theorem take_49_ne_nil (s : List Char) (h : s ≠ []) : s.take 49 ≠ [] := by
  cases s with
  | nil => exact absurd rfl h
  | cons c resto => simp

/-- C18, counterexample. The constructor called with the empty string leaves a
sensor whose name is empty. -/
theorem nombre_vacio_alcanzable :
    leerCadena (Sensor.temperatura (SensorTemperatura.conNombre (List.replicate 50 'x')
      "".toList) : Sensor Int).obtenerNombre = [] ∧
    leerCadena (SensorBase.obtenerNombre
      ((UsoNombre.conNombre "".toList).estado (List.replicate 50 'x'))) = [] ∧
    leerCadena (SensorBase.obtenerNombre
      ((UsoNombre.establecerNombre UsoNombre.temperatura "".toList).estado
        (List.replicate 50 'x'))) = [] := by
  decide

/-- C18, amended. After any use of the constructors (those without argument, or
those with a name string) and of `establecerNombre` in which every name string
handed over is non-empty, the name of the sensor is non-empty. -/
theorem nombre_no_vacio (b : List Char) (p : UsoNombre)
    (hb : b.length = capacidadNombre) (hp : p.argumentosNoVacios = true) :
    leerCadena (SensorBase.obtenerNombre (p.estado b)) ≠ [] := by
  unfold SensorBase.obtenerNombre
  cases p with
  | base =>
    simp only [UsoNombre.estado, SensorBase.porDefecto]
    rw [leerCadena_strcpy _ _ (by rw [hb]; decide)]
    decide
  | temperatura =>
    simp only [UsoNombre.estado]
    rw [leerCadena_conNombre _ _ hb]
    decide
  | presion =>
    simp only [UsoNombre.estado]
    rw [leerCadena_conNombre _ _ hb]
    decide
  | conNombre s =>
    simp only [UsoNombre.estado]
    rw [leerCadena_conNombre _ _ hb]
    apply take_49_ne_nil
    simpa [UsoNombre.argumentosNoVacios] using hp
  | establecerNombre p s =>
    simp only [UsoNombre.estado]
    show leerCadena (SensorBase.conNombre (p.estado b) s) ≠ []
    rw [leerCadena_conNombre _ _ (usoNombre_estado_length b p hb)]
    apply take_49_ne_nil
    have := hp
    simp only [UsoNombre.argumentosNoVacios, Bool.and_eq_true] at this
    simpa using this.2

/-- Witness for C18 as amended: a sensor constructed as "T1" and renamed "Nuevo". -/
theorem nombre_no_vacio_witness :
    (List.replicate 50 'x').length = capacidadNombre ∧
    (UsoNombre.establecerNombre (UsoNombre.conNombre "T1".toList)
      "Nuevo".toList).argumentosNoVacios = true ∧
    leerCadena (SensorBase.obtenerNombre
      ((UsoNombre.establecerNombre (UsoNombre.conNombre "T1".toList)
        "Nuevo".toList).estado (List.replicate 50 'x'))) ≠ [] :=
  ⟨by decide, by decide,
    nombre_no_vacio (List.replicate 50 'x')
      (UsoNombre.establecerNombre (UsoNombre.conNombre "T1".toList) "Nuevo".toList)
      (by decide) (by decide)⟩


/-! ## Auxiliary facts about the heap -/

theorem esLista_none (m : Memoria T) (xs : List T) (ds : List Nat)
    (h : EsLista m none xs ds) : xs = [] ∧ ds = [] := by
  cases xs with
  | nil =>
    cases ds with
    | nil => exact ⟨rfl, rfl⟩
    | cons d ds => simp [EsLista] at h
  | cons x xs =>
    cases ds with
    | nil => simp [EsLista] at h
    | cons d ds => simp [EsLista] at h

theorem esLista_length (m : Memoria T) (p : Option Nat) (xs : List T) (ds : List Nat)
    (h : EsLista m p xs ds) : ds.length = xs.length := by
  induction xs generalizing p ds with
  | nil =>
    cases ds with
    | nil => rfl
    | cons d ds => simp [EsLista] at h
  | cons x xs ih =>
    cases ds with
    | nil => simp [EsLista] at h
    | cons d ds =>
      obtain ⟨_, _, sig, _, hr⟩ := h
      simp [ih sig ds hr]

theorem esLista_nodup (m : Memoria T) (p : Option Nat) (xs : List T) (ds : List Nat)
    (h : EsLista m p xs ds) : ds.Nodup := by
  induction xs generalizing p ds with
  | nil =>
    cases ds with
    | nil => exact List.nodup_nil
    | cons d ds => simp [EsLista] at h
  | cons x xs ih =>
    cases ds with
    | nil => simp [EsLista] at h
    | cons d ds =>
      obtain ⟨_, hd, sig, _, hr⟩ := h
      exact List.nodup_cons.2 ⟨hd, ih sig ds hr⟩

/-- A chain is still a chain in any memory that agrees on its nodes. -/
theorem esLista_marco (m m2 : Memoria T) (p : Option Nat) (xs : List T) (ds : List Nat)
    (h : EsLista m p xs ds) (hm : ∀ a ∈ ds, m2.celdas a = m.celdas a) :
    EsLista m2 p xs ds := by
  induction xs generalizing p ds with
  | nil =>
    cases ds with
    | nil => exact h
    | cons d ds => simp [EsLista] at h
  | cons x xs ih =>
    cases ds with
    | nil => simp [EsLista] at h
    | cons d ds =>
      obtain ⟨hp, hd, sig, hc, hr⟩ := h
      refine ⟨hp, hd, sig, ?_, ih sig ds hr (fun a ha => hm a (List.mem_cons_of_mem _ ha))⟩
      rw [hm d (List.mem_cons_self _ _)]
      exact hc

theorem length_le_of_acotada (ds : List Nat) (n : Nat) (hn : ds.Nodup)
    (hb : ∀ a ∈ ds, a < n) : ds.length ≤ n := by
  have hsub : ds ⊆ List.range n := fun a ha => List.mem_range.2 (hb a ha)
  have := (List.subperm_of_subset hn hsub).length_le
  simpa using this

theorem escribirSiguiente_celdas (m : Memoria T) (a : Nat) (sig : Option Nat) (nodo : Nodo T)
    (h : m.celdas a = some nodo) :
    (m.escribirSiguiente a sig).celdas
      = Function.update m.celdas a (some ⟨nodo.dato, sig⟩) := by
  unfold Memoria.escribirSiguiente
  rw [h]

theorem escribirSiguiente_libre (m : Memoria T) (a : Nat) (sig : Option Nat) :
    (m.escribirSiguiente a sig).libre = m.libre := by
  unfold Memoria.escribirSiguiente
  cases m.celdas a <;> rfl

theorem escribirSiguiente_otra (m : Memoria T) (a b : Nat) (sig : Option Nat) (h : b ≠ a) :
    (m.escribirSiguiente a sig).celdas b = m.celdas b := by
  unfold Memoria.escribirSiguiente
  cases hc : m.celdas a with
  | none => rfl
  | some nodo => simp [Function.update_noteq h]

/-- The loop of `insertar` on a chain stops at one of its nodes, and linking a
node `n` outside the chain there yields the chain extended by `n`. -/
theorem ultimoNodo_enlaza (m : Memoria T) (xs : List T) (ds : List Nat) (c pasos n : Nat)
    (v : T) (h : EsLista m (some c) xs ds) (hf : ds.length ≤ pasos) (hn : n ∉ ds)
    (hcn : m.celdas n = some ⟨v, none⟩) :
    ∃ a, ultimoNodo m pasos c = some a ∧ a ∈ ds ∧
      EsLista (m.escribirSiguiente a (some n)) (some c) (xs ++ [v]) (ds ++ [n]) := by
  induction xs generalizing ds c pasos with
  | nil =>
    cases ds with
    | nil => simp [EsLista] at h
    | cons d ds => simp [EsLista] at h
  | cons x xs ih =>
    cases ds with
    | nil => simp [EsLista] at h
    | cons d ds =>
      obtain ⟨hp, hd, sig, hc, hr⟩ := h
      have hcd : c = d := Option.some.inj hp
      subst hcd
      have hnc : n ≠ c := fun e => hn (e ▸ List.mem_cons_self _ _)
      have hnds : n ∉ ds := fun e => hn (List.mem_cons_of_mem _ e)
      cases pasos with
      | zero => simp at hf
      | succ pasos =>
        have hf2 : ds.length ≤ pasos := by simpa using hf
        cases sig with
        | none =>
          obtain ⟨hxs, hds⟩ := esLista_none m xs ds hr
          subst hxs
          subst hds
          refine ⟨c, by simp [ultimoNodo, hc], List.mem_cons_self _ _, ?_⟩
          have hcel := escribirSiguiente_celdas m c (some n) _ hc
          refine ⟨rfl, by simpa using hnc.symm, some n, ?_, rfl, by simp, none, ?_, rfl⟩
          · rw [hcel]; simp
          · rw [hcel, Function.update_noteq hnc]; exact hcn
        | some s =>
          obtain ⟨a, hu, ha, hl⟩ := ih ds s pasos hr hf2 hnds
          have hac : a ≠ c := fun e => hd (e ▸ ha)
          refine ⟨a, by simp [ultimoNodo, hc, hu], List.mem_cons_of_mem _ ha, ?_⟩
          refine ⟨rfl, ?_, some s, ?_, hl⟩
          · intro hmem
            rcases List.mem_append.1 hmem with h1 | h1
            · exact hd h1
            · exact hnc (List.mem_singleton.1 h1).symm
          · rw [escribirSiguiente_otra m a c (some n) hac.symm]
            exact hc

/-- Specification of `insertar` on the heap: it succeeds, appends the value in a
node at the new address, and touches no node outside the chain. -/
theorem insertarM_spec (m : Memoria T) (l : ListaSensorM) (xs : List T) (ds : List Nat)
    (v : T) (h : EsLista m l.cabeza xs ds) (hb : ∀ a ∈ ds, a < m.libre) :
    ∃ m2 l2, insertarM m l v = some (m2, l2) ∧
      EsLista m2 l2.cabeza (xs ++ [v]) (ds ++ [m.libre]) ∧
      l2.tamano = l.tamano + 1 ∧ m2.libre = m.libre + 1 ∧
      ∀ a, a ∉ ds → a ≠ m.libre → m2.celdas a = m.celdas a := by
  have hfresh : m.libre ∉ ds := fun e => lt_irrefl _ (hb _ e)
  have h1 : EsLista (m.nuevo v).2 l.cabeza xs ds := by
    apply esLista_marco m _ _ _ _ h
    intro a ha
    have : a ≠ m.libre := fun e => hfresh (e ▸ ha)
    simp [Memoria.nuevo, Function.update_noteq this]
  have hnew : (m.nuevo v).2.celdas m.libre = some ⟨v, none⟩ := by
    simp [Memoria.nuevo]
  cases hc : l.cabeza with
  | none =>
    rw [hc] at h
    obtain ⟨hxs, hds⟩ := esLista_none m xs ds h
    subst hxs
    subst hds
    refine ⟨(m.nuevo v).2, ⟨some (m.nuevo v).1, l.tamano + 1⟩, by simp [insertarM, hc],
      ?_, rfl, rfl, ?_⟩
    · exact ⟨rfl, by simp, none, hnew, rfl⟩
    · intro a _ ha
      simp [Memoria.nuevo, Function.update_noteq ha]
  | some c =>
    rw [hc] at h1
    have hlen : ds.length ≤ (m.nuevo v).2.libre := by
      have := length_le_of_acotada ds m.libre (esLista_nodup _ _ _ _ h) hb
      simp only [Memoria.nuevo]
      omega
    obtain ⟨a, hu, ha, hl⟩ :=
      ultimoNodo_enlaza (m.nuevo v).2 xs ds c _ m.libre v h1 hlen hfresh hnew
    refine ⟨(m.nuevo v).2.escribirSiguiente a (some (m.nuevo v).1), ⟨some c, l.tamano + 1⟩,
      by simp [insertarM, hc, hu], hl, rfl, ?_, ?_⟩
    · rw [escribirSiguiente_libre]; rfl
    · intro b hbds hbl
      have hba : b ≠ a := fun e => hbds (e ▸ ha)
      rw [escribirSiguiente_otra _ a b _ hba]
      simp [Memoria.nuevo, Function.update_noteq hbl]


theorem liberar_otra (m : Memoria T) (a b : Nat) (h : b ≠ a) :
    (m.liberar a).celdas b = m.celdas b := by
  simp [Memoria.liberar, Function.update_noteq h]

theorem liberar_misma (m : Memoria T) (a : Nat) : (m.liberar a).celdas a = none := by
  simp [Memoria.liberar]


/-- The second loop of `eliminar` on a chain whose first value does not compare
equal to `v`: it stops at a node of the chain; if no later value compares equal
to `v`, that node is the last one, and otherwise unlinking and freeing its
successor yields the chain without the first value that compares equal to `v`. -/
theorem anteriorAlValor_desenlaza (ops : Numerico T) (m : Memoria T) (v : T) (xs : List T)
    (ds : List Nat) (x : T) (d pasos : Nat)
    (h : EsLista m (some d) (x :: xs) (d :: ds)) (hx : ops.igual x v = false)
    (hf : (d :: ds).length ≤ pasos) :
    ∃ a na, anteriorAlValor ops m v pasos d = some a ∧ m.celdas a = some na ∧ a ∈ d :: ds ∧
      (xs.any (fun z => ops.igual z v) = false → na.siguiente = none) ∧
      (xs.any (fun z => ops.igual z v) = true →
        ∃ temp nt ds2, na.siguiente = some temp ∧ m.celdas temp = some nt ∧
        temp ∈ ds ∧ ds2 ⊆ ds ∧
        EsLista ((m.escribirSiguiente a nt.siguiente).liberar temp) (some d)
          (x :: xs.eraseP (fun z => ops.igual z v)) (d :: ds2)) := by
  induction xs generalizing ds x d pasos with
  | nil =>
    obtain ⟨_, _, sig, hc, hr⟩ := h
    cases ds with
    | cons e es => simp [EsLista] at hr
    | nil =>
      have hsig : sig = none := hr
      subst hsig
      cases pasos with
      | zero => simp at hf
      | succ pasos =>
        exact ⟨d, _, by simp [anteriorAlValor, hc], hc, List.mem_cons_self _ _,
          fun _ => rfl, fun hm => absurd hm (by simp)⟩
  | cons y ys ih =>
    obtain ⟨_, hd, sig, hc, hr⟩ := h
    cases ds with
    | nil => simp [EsLista] at hr
    | cons e es =>
      have hr2 := hr
      obtain ⟨hsig, he, sig2, hce, hr3⟩ := hr
      subst hsig
      have hde : d ≠ e := fun e1 => hd (e1 ▸ List.mem_cons_self _ _)
      have hdes : d ∉ es := fun e1 => hd (List.mem_cons_of_mem _ e1)
      cases pasos with
      | zero => simp at hf
      | succ pasos =>
        have hf2 : (e :: es).length ≤ pasos := by simpa using hf
        cases hy : ops.igual y v with
        | true =>
          refine ⟨d, _, by simp [anteriorAlValor, hc, hce, hy], hc, List.mem_cons_self _ _,
            fun hn => absurd hn (by simp [hy]), ?_⟩
          intro _
          refine ⟨e, _, es, rfl, hce, List.mem_cons_self _ _,
            List.subset_cons_self _ _, ?_⟩
          have herase : (y :: ys).eraseP (fun z => ops.igual z v) = ys := by
            simp [List.eraseP_cons, hy]
          rw [herase]
          refine ⟨rfl, hdes, sig2, ?_, ?_⟩
          · rw [liberar_otra _ _ _ hde, escribirSiguiente_celdas m d _ _ hc]
            simp
          · apply esLista_marco m _ _ _ _ hr3
            intro a ha
            have hae : a ≠ e := fun e1 => he (e1 ▸ ha)
            have had : a ≠ d := fun e1 => hdes (e1 ▸ ha)
            rw [liberar_otra _ _ _ hae, escribirSiguiente_otra _ _ _ _ had]
        | false =>
          obtain ⟨a, na, hu, hna, ha, hno, hsi⟩ := ih es y e pasos hr2 hy hf2
          have hany : (y :: ys).any (fun z => ops.igual z v)
              = ys.any (fun z => ops.igual z v) := by
            simp [hy]
          refine ⟨a, na, by simp [anteriorAlValor, hc, hce, hy, hu], hna,
            List.mem_cons_of_mem _ ha, ?_, ?_⟩
          · intro hn
            exact hno (hany ▸ hn)
          · intro hm
            obtain ⟨temp, nt, ds2, hs, hnt, htemp, hsub, hl⟩ := hsi (hany ▸ hm)
            refine ⟨temp, nt, e :: ds2, hs, hnt, List.mem_cons_of_mem _ htemp, ?_, ?_⟩
            · intro b hb
              rcases List.mem_cons.1 hb with h1 | h1
              · exact h1 ▸ List.mem_cons_self _ _
              · exact List.mem_cons_of_mem _ (hsub h1)
            · have herase : (y :: ys).eraseP (fun z => ops.igual z v)
                  = y :: ys.eraseP (fun z => ops.igual z v) := by
                simp [List.eraseP_cons, hy]
              rw [herase]
              have hdtemp : d ≠ temp := fun e1 => hdes (e1 ▸ htemp)
              have hda : d ≠ a := fun e1 => hd (e1 ▸ ha)
              refine ⟨rfl, ?_, some e, ?_, hl⟩
              · intro hmem
                rcases List.mem_cons.1 hmem with h1 | h1
                · exact hde h1
                · exact hdes (hsub h1)
              · rw [liberar_otra _ _ _ hdtemp, escribirSiguiente_otra _ _ _ _ hda]
                exact hc

/-- Specification of `eliminar` on the heap: it succeeds with the flag and the
values of the function on values, keeps the chain within its old nodes, and
touches no node outside the chain. -/
theorem eliminarM_spec (ops : Numerico T) (m : Memoria T) (l : ListaSensorM) (xs : List T)
    (ds : List Nat) (v : T) (h : EsLista m l.cabeza xs ds) (hb : ∀ a ∈ ds, a < m.libre) :
    ∃ m2 l2 ds2, eliminarM ops m l v = some (xs.any (fun z => ops.igual z v), m2, l2) ∧
      EsLista m2 l2.cabeza (xs.eraseP (fun z => ops.igual z v)) ds2 ∧ ds2 ⊆ ds ∧
      l2.tamano = (if xs.any (fun z => ops.igual z v) = true then l.tamano - 1
        else l.tamano) ∧
      m2.libre = m.libre ∧ ∀ a, a ∉ ds → m2.celdas a = m.celdas a := by
  cases xs with
  | nil =>
    cases ds with
    | cons d ds => simp [EsLista] at h
    | nil =>
      have hc : l.cabeza = none := h
      exact ⟨m, l, [], by simp [eliminarM, hc], by simpa [EsLista] using hc,
        List.Subset.refl _, by simp, rfl, fun _ _ => rfl⟩
  | cons x xs =>
    cases ds with
    | nil => simp [EsLista] at h
    | cons d ds =>
      have h0 := h
      obtain ⟨hp, hd, sig, hc, hr⟩ := h
      cases hx : ops.igual x v with
      | true =>
        have herase : (x :: xs).eraseP (fun z => ops.igual z v) = xs := by
          simp [List.eraseP_cons, hx]
        refine ⟨m.liberar d, ⟨sig, l.tamano - 1⟩, ds, by simp [eliminarM, hp, hc, hx], ?_,
          List.subset_cons_self _ _, by simp [hx], rfl, ?_⟩
        · rw [herase]
          apply esLista_marco m _ _ _ _ hr
          intro a ha
          exact liberar_otra _ _ _ (fun e1 => hd (e1 ▸ ha))
        · intro a ha
          exact liberar_otra _ _ _ (fun e1 => ha (e1 ▸ List.mem_cons_self _ _))
      | false =>
        have hlen : (d :: ds).length ≤ m.libre :=
          length_le_of_acotada _ _ (esLista_nodup _ _ _ _ h0) hb
        rw [hp] at h0
        obtain ⟨a, na, hu, hna, ha, hno, hsi⟩ :=
          anteriorAlValor_desenlaza ops m v xs ds x d m.libre h0 hx hlen
        have hany : (x :: xs).any (fun z => ops.igual z v)
            = xs.any (fun z => ops.igual z v) := by
          simp [hx]
        have herase : (x :: xs).eraseP (fun z => ops.igual z v)
            = x :: xs.eraseP (fun z => ops.igual z v) := by
          simp [List.eraseP_cons, hx]
        rw [hany, herase]
        cases hm : xs.any (fun z => ops.igual z v) with
        | true =>
          obtain ⟨temp, nt, ds2, hs, hnt, htemp, hsub, hl⟩ := hsi hm
          refine ⟨(m.escribirSiguiente a nt.siguiente).liberar temp, ⟨some d, l.tamano - 1⟩,
            d :: ds2, by simp [eliminarM, hp, hc, hx, hu, hna, hs, hnt], hl, ?_,
            by simp, ?_, ?_⟩
          · intro b hb2
            rcases List.mem_cons.1 hb2 with h1 | h1
            · exact h1 ▸ List.mem_cons_self _ _
            · exact List.mem_cons_of_mem _ (hsub h1)
          · show (m.escribirSiguiente a nt.siguiente).libre = m.libre
            exact escribirSiguiente_libre _ _ _
          · intro b hb2
            have hbt : b ≠ temp := fun e1 => hb2 (e1 ▸ List.mem_cons_of_mem _ htemp)
            have hba : b ≠ a := fun e1 => hb2 (e1 ▸ ha)
            rw [liberar_otra _ _ _ hbt, escribirSiguiente_otra _ _ _ _ hba]
        | false =>
          have hs := hno hm
          have hnone : xs.eraseP (fun z => ops.igual z v) = xs := by
            apply List.eraseP_of_forall_not
            intro z hz hpz
            have : xs.any (fun z => ops.igual z v) = true := List.any_eq_true.2 ⟨z, hz, hpz⟩
            rw [hm] at this
            exact absurd this (by simp)
          refine ⟨m, l, d :: ds, by simp [eliminarM, hp, hc, hx, hu, hna, hs], ?_,
            List.Subset.refl _, by simp, rfl, fun _ _ => rfl⟩
          rw [hnone, hp]
          exact h0

/-- The loop of `limpiar` on a chain succeeds, frees every node of the chain and
touches no other node. -/
theorem liberarCadena_spec (m : Memoria T) (p : Option Nat) (xs : List T) (ds : List Nat)
    (pasos : Nat) (h : EsLista m p xs ds) (hf : ds.length ≤ pasos) :
    ∃ m2, liberarCadena m pasos p = some m2 ∧ m2.libre = m.libre ∧
      (∀ a ∈ ds, m2.celdas a = none) ∧ ∀ a, a ∉ ds → m2.celdas a = m.celdas a := by
  induction xs generalizing m p ds pasos with
  | nil =>
    cases ds with
    | cons d ds => simp [EsLista] at h
    | nil =>
      have hp : p = none := h
      subst hp
      refine ⟨m, ?_, rfl, by simp, fun _ _ => rfl⟩
      cases pasos <;> rfl
  | cons x xs ih =>
    cases ds with
    | nil => simp [EsLista] at h
    | cons d ds =>
      obtain ⟨hp, hd, sig, hc, hr⟩ := h
      subst hp
      cases pasos with
      | zero => simp at hf
      | succ pasos =>
        have hf2 : ds.length ≤ pasos := by simpa using hf
        have hr2 : EsLista (m.liberar d) sig xs ds := by
          apply esLista_marco m _ _ _ _ hr
          intro a ha
          exact liberar_otra _ _ _ (fun e1 => hd (e1 ▸ ha))
        obtain ⟨m2, hl, hlib, hnone, hmarco⟩ := ih (m.liberar d) sig ds pasos hr2 hf2
        refine ⟨m2, by simp [liberarCadena, hc, hl], hlib, ?_, ?_⟩
        · intro a ha
          rcases List.mem_cons.1 ha with h1 | h1
          · subst h1
            rw [hmarco a hd]
            exact liberar_misma _ _
          · exact hnone a h1
        · intro a ha
          have had : a ≠ d := fun e1 => ha (e1 ▸ List.mem_cons_self _ _)
          have hads : a ∉ ds := fun e1 => ha (List.mem_cons_of_mem _ e1)
          rw [hmarco a hads]
          exact liberar_otra _ _ _ had

/-- Specification of `limpiar` on the heap. -/
theorem limpiarM_spec (m : Memoria T) (l : ListaSensorM) (xs : List T) (ds : List Nat)
    (h : EsLista m l.cabeza xs ds) (hb : ∀ a ∈ ds, a < m.libre) :
    ∃ m2, limpiarM m l = some (m2, ⟨none, 0⟩) ∧ m2.libre = m.libre ∧
      (∀ a ∈ ds, m2.celdas a = none) ∧ ∀ a, a ∉ ds → m2.celdas a = m.celdas a := by
  have hlen := length_le_of_acotada ds m.libre (esLista_nodup _ _ _ _ h) hb
  obtain ⟨m2, hl, hlib, hnone, hmarco⟩ := liberarCadena_spec m l.cabeza xs ds m.libre h hlen
  exact ⟨m2, by simp [limpiarM, hl], hlib, hnone, hmarco⟩


/-- The loop of `copiar` on the heap, reading a chain `S` and appending to an
object whose nodes are apart from it: it succeeds, appends the values of `S` in
new nodes, and touches no allocated node outside the target. -/
theorem copiarCadena_spec (S : List T) (m : Memoria T) (l : ListaSensorM) (p : Option Nat)
    (dO : List Nat) (L : List T) (dL : List Nat) (pasos : Nat)
    (hS : EsLista m p S dO) (hL : EsLista m l.cabeza L dL)
    (hdis : ∀ a ∈ dO, a ∉ dL) (hbO : ∀ a ∈ dO, a < m.libre) (hbL : ∀ a ∈ dL, a < m.libre)
    (hf : S.length ≤ pasos) :
    ∃ m2 l2 dN, copiarCadena pasos m l p = some (m2, l2) ∧
      EsLista m2 l2.cabeza (L ++ S) (dL ++ dN) ∧
      (∀ a ∈ dN, m.libre ≤ a ∧ a < m2.libre) ∧
      l2.tamano = l.tamano + S.length ∧ m.libre ≤ m2.libre ∧
      ∀ a, a ∉ dL → a < m.libre → m2.celdas a = m.celdas a := by
  induction S generalizing m l p dO L dL pasos with
  | nil =>
    cases dO with
    | cons d dO => simp [EsLista] at hS
    | nil =>
      have hp : p = none := hS
      subst hp
      refine ⟨m, l, [], ?_, by simpa using hL, by simp, by simp, le_refl _, fun _ _ _ => rfl⟩
      cases pasos <;> rfl
  | cons x S ih =>
    cases dO with
    | nil => simp [EsLista] at hS
    | cons d dO =>
      obtain ⟨hp, hd, sig, hc, hr⟩ := hS
      subst hp
      cases pasos with
      | zero => simp at hf
      | succ pasos =>
        have hf2 : S.length ≤ pasos := by simpa using hf
        obtain ⟨m1, l1, hins, hL1, htam, hlib, hmarco⟩ := insertarM_spec m l L dL x hL hbL
        have hdlib : d ≠ m.libre := fun e1 =>
          lt_irrefl _ (e1 ▸ hbO d (List.mem_cons_self _ _))
        have hc1 : m1.celdas d = some ⟨x, sig⟩ := by
          rw [hmarco d (hdis d (List.mem_cons_self _ _)) hdlib]
          exact hc
        have hr1 : EsLista m1 sig S dO := by
          apply esLista_marco m _ _ _ _ hr
          intro a ha
          have hamem : a ∈ d :: dO := List.mem_cons_of_mem _ ha
          exact hmarco a (hdis a hamem) (fun e1 => lt_irrefl _ (e1 ▸ hbO a hamem))
        have hdis1 : ∀ a ∈ dO, a ∉ dL ++ [m.libre] := by
          intro a ha hmem
          have hamem : a ∈ d :: dO := List.mem_cons_of_mem _ ha
          rcases List.mem_append.1 hmem with h1 | h1
          · exact hdis a hamem h1
          · have h2 := List.mem_singleton.1 h1
            exact lt_irrefl _ (h2 ▸ hbO a hamem)
        have hbO1 : ∀ a ∈ dO, a < m1.libre := by
          intro a ha
          have := hbO a (List.mem_cons_of_mem _ ha)
          omega
        have hbL1 : ∀ a ∈ dL ++ [m.libre], a < m1.libre := by
          intro a ha
          rcases List.mem_append.1 ha with h1 | h1
          · have := hbL a h1
            omega
          · have := List.mem_singleton.1 h1
            omega
        obtain ⟨m2, l2, dN, hcop, hL2, hnew, htam2, hlib2, hmarco2⟩ :=
          ih m1 l1 sig dO (L ++ [x]) (dL ++ [m.libre]) pasos hr1 hL1 hdis1 hbO1 hbL1 hf2
        refine ⟨m2, l2, m.libre :: dN, by simp [copiarCadena, hc, hins, hc1, hcop], ?_, ?_,
          ?_, by omega, ?_⟩
        · have e1 : L ++ x :: S = (L ++ [x]) ++ S := by simp
          have e2 : dL ++ m.libre :: dN = (dL ++ [m.libre]) ++ dN := by simp
          rw [e1, e2]
          exact hL2
        · intro a ha
          rcases List.mem_cons.1 ha with h1 | h1
          · subst h1
            exact ⟨le_refl _, by omega⟩
          · have := hnew a h1
            omega
        · rw [htam2, htam, List.length_cons]
          push_cast
          ring
        · intro a ha hlt
          have h1 : a ∉ dL ++ [m.libre] := by
            intro hmem
            rcases List.mem_append.1 hmem with h2 | h2
            · exact ha h2
            · have := List.mem_singleton.1 h2
              omega
          rw [hmarco2 a h1 (by omega)]
          exact hmarco a ha (by omega)

/-- Specification of `copiar` on the heap for a target apart from the source. -/
theorem copiarM_spec (m : Memoria T) (l otra : ListaSensorM) (S L : List T)
    (dO dL : List Nat) (hO : Propia m otra S dO) (hL : Propia m l L dL)
    (hdis : ∀ a ∈ dO, a ∉ dL) :
    ∃ m2 l2 dN, copiarM m l otra = some (m2, l2) ∧ Propia m2 l2 (L ++ S) (dL ++ dN) ∧
      Propia m2 otra S dO ∧ (∀ a ∈ dN, a ∉ dO) ∧ l2.tamano = l.tamano + S.length ∧
      ∀ a, a ∉ dL → a < m.libre → m2.celdas a = m.celdas a := by
  have hlen : S.length ≤ m.libre := by
    rw [← esLista_length m _ S dO hO.1]
    exact length_le_of_acotada dO m.libre (esLista_nodup _ _ _ _ hO.1) hO.2
  obtain ⟨m2, l2, dN, hcop, hL2, hnew, htam, hlib, hmarco⟩ :=
    copiarCadena_spec S m l otra.cabeza dO L dL m.libre hO.1 hL.1 hdis hO.2 hL.2 hlen
  refine ⟨m2, l2, dN, hcop, ⟨hL2, ?_⟩, ⟨?_, ?_⟩, ?_, htam, hmarco⟩
  · intro a ha
    rcases List.mem_append.1 ha with h1 | h1
    · have := hL.2 a h1
      omega
    · exact (hnew a h1).2
  · apply esLista_marco m _ _ _ _ hO.1
    intro a ha
    exact hmarco a (hdis a ha) (hO.2 a ha)
  · intro a ha
    have := hO.2 a ha
    omega
  · intro a ha hmem
    have h1 := (hnew a ha).1
    have h2 := hO.2 a hmem
    omega

/-- An `insertar` on one object leaves another object with nodes of its own as it
was, and the two stay apart. -/
theorem insertarM_marco (m : Memoria T) (c otra : ListaSensorM) (C S : List T)
    (dC dO : List Nat) (v : T) (hC : Propia m c C dC) (hO : Propia m otra S dO)
    (hdis : ∀ a ∈ dC, a ∉ dO) :
    ∃ m2 c2, insertarM m c v = some (m2, c2) ∧
      Propia m2 c2 (C ++ [v]) (dC ++ [m.libre]) ∧ c2.tamano = c.tamano + 1 ∧
      Propia m2 otra S dO ∧ ∀ a ∈ dC ++ [m.libre], a ∉ dO := by
  obtain ⟨m2, c2, hins, hL, htam, hlib, hmarco⟩ := insertarM_spec m c C dC v hC.1 hC.2
  refine ⟨m2, c2, hins, ⟨hL, ?_⟩, htam, ⟨?_, ?_⟩, ?_⟩
  · intro a ha
    rcases List.mem_append.1 ha with h1 | h1
    · have := hC.2 a h1
      omega
    · have := List.mem_singleton.1 h1
      omega
  · apply esLista_marco m _ _ _ _ hO.1
    intro a ha
    exact hmarco a (fun h1 => hdis a h1 ha) (fun e1 => lt_irrefl _ (e1 ▸ hO.2 a ha))
  · intro a ha
    have := hO.2 a ha
    omega
  · intro a ha hmem
    rcases List.mem_append.1 ha with h1 | h1
    · exact hdis a h1 hmem
    · have h2 := List.mem_singleton.1 h1
      exact lt_irrefl _ (h2 ▸ hO.2 a hmem)

/-- An `eliminar` on one object leaves another object with nodes of its own as it
was, and the two stay apart. -/
theorem eliminarM_marco (ops : Numerico T) (m : Memoria T) (c otra : ListaSensorM)
    (C S : List T) (dC dO : List Nat) (v : T) (hC : Propia m c C dC)
    (hO : Propia m otra S dO) (hdis : ∀ a ∈ dC, a ∉ dO) :
    ∃ m2 c2 dC2, eliminarM ops m c v = some (C.any (fun z => ops.igual z v), m2, c2) ∧
      Propia m2 c2 (C.eraseP (fun z => ops.igual z v)) dC2 ∧
      c2.tamano = (if C.any (fun z => ops.igual z v) = true then c.tamano - 1 else c.tamano) ∧
      Propia m2 otra S dO ∧ ∀ a ∈ dC2, a ∉ dO := by
  obtain ⟨m2, c2, dC2, hel, hL, hsub, htam, hlib, hmarco⟩ :=
    eliminarM_spec ops m c C dC v hC.1 hC.2
  refine ⟨m2, c2, dC2, hel, ⟨hL, ?_⟩, htam, ⟨?_, ?_⟩, ?_⟩
  · intro a ha
    rw [hlib]
    exact hC.2 a (hsub ha)
  · apply esLista_marco m _ _ _ _ hO.1
    intro a ha
    exact hmarco a (fun h1 => hdis a h1 ha)
  · intro a ha
    rw [hlib]
    exact hO.2 a ha
  · intro a ha
    exact hdis a (hsub ha)

theorem copia_eq (otra : ListaSensor T) :
    otra.copia = ⟨otra.cabeza, (otra.cabeza.length : Int)⟩ := by
  have h1 := copiarDesde_cabeza (⟨[], 0⟩ : ListaSensor T) otra.cabeza
  have h2 := copiarDesde_tamano (⟨[], 0⟩ : ListaSensor T) otra.cabeza
  unfold ListaSensor.copia ListaSensor.copiar
  cases h : copiarDesde (⟨[], 0⟩ : ListaSensor T) otra.cabeza with
  | mk c t =>
    rw [h] at h1 h2
    simp only [List.nil_append, zero_add] at h1 h2
    simp [h1, h2]

theorem asignar_eq (l otra : ListaSensor T) :
    l.asignar otra = ⟨otra.cabeza, (otra.cabeza.length : Int)⟩ := by
  have h := copia_eq otra
  unfold ListaSensor.copia at h
  unfold ListaSensor.asignar ListaSensor.limpiar
  rw [liberarDesde_eq]
  exact h


/-! ## Copy construction and assignment -/

/-- C16. Let the object `otra` own the nodes `dO` holding the values `S`, its
count being the length of `S`.  Copy construction succeeds and yields an object
holding the same values in the same order with the same count, in nodes of its
own, none shared with `otra`, which still holds `S` in the same nodes.
Assignment to a different object does the same whatever the target held before,
and frees the old nodes of the target; self-assignment changes nothing.  A later
`insertar` or `eliminar` on the copy, or on any object whose nodes are apart from
those of `otra`, leaves `otra` holding `S`, whatever `==` answers.  On values,
the copy and the assigned list are the source list. -/
theorem copia_y_asignacion_independientes (ops : Numerico T) (m : Memoria T)
    (otra : ListaSensorM) (S : List T) (dO : List Nat)
    (hO : Propia m otra S dO) (hcons : otra.tamano = S.length) :
    (∃ m2 c dC, copiaM m otra = some (m2, c) ∧ Propia m2 c S dC ∧
      c.tamano = otra.tamano ∧ Propia m2 otra S dO ∧ (∀ a ∈ dC, a ∉ dO) ∧
      (∀ v, ∃ m3 c3, insertarM m2 c v = some (m3, c3) ∧
        Propia m3 c3 (S ++ [v]) (dC ++ [m2.libre]) ∧ Propia m3 otra S dO) ∧
      (∀ v, ∃ m3 c3 dC3,
        eliminarM ops m2 c v = some (S.any (fun z => ops.igual z v), m3, c3) ∧
        Propia m3 c3 (S.eraseP (fun z => ops.igual z v)) dC3 ∧ Propia m3 otra S dO)) ∧
    (∀ l L dL, Propia m l L dL → (∀ a ∈ dL, a ∉ dO) →
      ∃ m2 l2 dC, asignarM false m l otra = some (m2, l2) ∧ Propia m2 l2 S dC ∧
        l2.tamano = otra.tamano ∧ Propia m2 otra S dO ∧ (∀ a ∈ dC, a ∉ dO) ∧
        (∀ a ∈ dL, m2.celdas a = none) ∧
        (∀ v, ∃ m3 l3, insertarM m2 l2 v = some (m3, l3) ∧
          Propia m3 l3 (S ++ [v]) (dC ++ [m2.libre]) ∧ Propia m3 otra S dO) ∧
        (∀ v, ∃ m3 l3 dC3,
          eliminarM ops m2 l2 v = some (S.any (fun z => ops.igual z v), m3, l3) ∧
          Propia m3 l3 (S.eraseP (fun z => ops.igual z v)) dC3 ∧ Propia m3 otra S dO)) ∧
    asignarM true m otra otra = some (m, otra) ∧
    (∀ c C dC v, Propia m c C dC → (∀ a ∈ dC, a ∉ dO) →
      (∃ m2 c2, insertarM m c v = some (m2, c2) ∧
        Propia m2 c2 (C ++ [v]) (dC ++ [m.libre]) ∧ Propia m2 otra S dO ∧
        ∀ a ∈ dC ++ [m.libre], a ∉ dO) ∧
      (∃ m2 c2 dC2, eliminarM ops m c v = some (C.any (fun z => ops.igual z v), m2, c2) ∧
        Propia m2 c2 (C.eraseP (fun z => ops.igual z v)) dC2 ∧ Propia m2 otra S dO ∧
        ∀ a ∈ dC2, a ∉ dO)) ∧
    ListaSensor.copia (⟨S, (S.length : Int)⟩ : ListaSensor T) = ⟨S, (S.length : Int)⟩ ∧
    (∀ l : ListaSensor T, l.asignar ⟨S, (S.length : Int)⟩ = ⟨S, (S.length : Int)⟩) := by
  have hposterior : ∀ (m2 : Memoria T) (c : ListaSensorM) (dC : List Nat),
      Propia m2 c S dC → Propia m2 otra S dO → (∀ a ∈ dC, a ∉ dO) →
      (∀ v, ∃ m3 c3, insertarM m2 c v = some (m3, c3) ∧
        Propia m3 c3 (S ++ [v]) (dC ++ [m2.libre]) ∧ Propia m3 otra S dO) ∧
      (∀ v, ∃ m3 c3 dC3,
        eliminarM ops m2 c v = some (S.any (fun z => ops.igual z v), m3, c3) ∧
        Propia m3 c3 (S.eraseP (fun z => ops.igual z v)) dC3 ∧ Propia m3 otra S dO) := by
    intro m2 c dC hC hO2 hdis
    constructor
    · intro v
      obtain ⟨m3, c3, h1, h2, _, h4, _⟩ := insertarM_marco m2 c otra S S dC dO v hC hO2 hdis
      exact ⟨m3, c3, h1, h2, h4⟩
    · intro v
      obtain ⟨m3, c3, dC3, h1, h2, _, h4, _⟩ :=
        eliminarM_marco ops m2 c otra S S dC dO v hC hO2 hdis
      exact ⟨m3, c3, dC3, h1, h2, h4⟩
  refine ⟨?_, ?_, rfl, ?_, copia_eq _, fun l => asignar_eq l _⟩
  · have hvacia : Propia m (⟨none, 0⟩ : ListaSensorM) ([] : List T) [] :=
      ⟨rfl, fun a ha => absurd ha (List.not_mem_nil _)⟩
    obtain ⟨m2, c, dN, hcop, hC, hO2, hdis, htam, _⟩ :=
      copiarM_spec m ⟨none, 0⟩ otra S [] dO [] hO hvacia (fun a _ => List.not_mem_nil a)
    simp only [List.nil_append] at hC
    have htam2 : c.tamano = otra.tamano := by
      rw [htam, hcons]
      simp
    exact ⟨m2, c, dN, hcop, hC, htam2, hO2, hdis, hposterior m2 c dN hC hO2 hdis⟩
  · intro l L dL hL hdis
    obtain ⟨m1, hlim, hlib, hnone, hmarco⟩ := limpiarM_spec m l L dL hL.1 hL.2
    have hO1 : Propia m1 otra S dO := by
      refine ⟨?_, ?_⟩
      · apply esLista_marco m _ _ _ _ hO.1
        intro a ha
        exact hmarco a (fun h1 => hdis a h1 ha)
      · intro a ha
        rw [hlib]
        exact hO.2 a ha
    have hvacia : Propia m1 (⟨none, 0⟩ : ListaSensorM) ([] : List T) [] :=
      ⟨rfl, fun a ha => absurd ha (List.not_mem_nil _)⟩
    obtain ⟨m2, l2, dN, hcop, hC, hO2, hdisN, htam, hmarco2⟩ :=
      copiarM_spec m1 ⟨none, 0⟩ otra S [] dO [] hO1 hvacia (fun a _ => List.not_mem_nil a)
    simp only [List.nil_append] at hC
    have htam2 : l2.tamano = otra.tamano := by
      rw [htam, hcons]
      simp
    refine ⟨m2, l2, dN, by simp [asignarM, hlim, hcop], hC, htam2, hO2, hdisN, ?_,
      hposterior m2 l2 dN hC hO2 hdisN⟩
    intro a ha
    rw [hmarco2 a (List.not_mem_nil a) (by rw [hlib]; exact hL.2 a ha)]
    exact hnone a ha
  · intro c C dC v hC hdis
    constructor
    · obtain ⟨m2, c2, h1, h2, _, h4, h5⟩ := insertarM_marco m c otra C S dC dO v hC hO hdis
      exact ⟨m2, c2, h1, h2, h4, h5⟩
    · obtain ⟨m2, c2, dC2, h1, h2, _, h4, h5⟩ :=
        eliminarM_marco ops m c otra C S dC dO v hC hO hdis
      exact ⟨m2, c2, dC2, h1, h2, h4, h5⟩

/-- Witness for C16: the list `[3, 1]` in the nodes at addresses 0 and 1.  Its copy
holds `[3, 1]` in the nodes at addresses 2 and 3, and after `eliminar(3)` on the
copy the source still holds `[3, 1]`. -/
theorem copia_y_asignacion_independientes_witness :
    Propia (⟨fun a => if a = 0 then some ⟨3, some 1⟩
      else if a = 1 then some ⟨1, none⟩ else none, 2⟩ : Memoria Int)
      ⟨some 0, 2⟩ [3, 1] [0, 1] ∧
    ((copiaM (⟨fun a => if a = 0 then some ⟨3, some 1⟩
      else if a = 1 then some ⟨1, none⟩ else none, 2⟩ : Memoria Int) ⟨some 0, 2⟩).map
        (fun r => (leerLista r.1 r.1.libre r.2.cabeza, r.2))
      = some (some [3, 1], ⟨some 2, 2⟩)) ∧
    (((copiaM (⟨fun a => if a = 0 then some ⟨3, some 1⟩
      else if a = 1 then some ⟨1, none⟩ else none, 2⟩ : Memoria Int) ⟨some 0, 2⟩).bind
        (fun r => eliminarM entero32 r.1 r.2 3)).map
        (fun q => (leerLista q.2.1 q.2.1.libre q.2.2.cabeza, leerLista q.2.1 q.2.1.libre (some 0)))
      = some (some [1], some [3, 1])) ∧
    ∃ m2 c dC, copiaM (⟨fun a => if a = 0 then some ⟨3, some 1⟩
      else if a = 1 then some ⟨1, none⟩ else none, 2⟩ : Memoria Int) ⟨some 0, 2⟩
        = some (m2, c) ∧
      Propia m2 c [3, 1] dC ∧ Propia m2 ⟨some 0, 2⟩ [3, 1] [0, 1] ∧ ∀ a ∈ dC, a ∉ [0, 1] :=
  ⟨⟨⟨rfl, by decide, some 1, rfl, rfl, by decide, none, rfl, rfl⟩, by decide⟩,
    by decide, by decide,
    (copia_y_asignacion_independientes entero32 _ ⟨some 0, 2⟩ [3, 1] [0, 1]
      ⟨⟨rfl, by decide, some 1, rfl, rfl, by decide, none, rfl, rfl⟩, by decide⟩ rfl).1.imp
      (fun _ h => h.imp (fun _ h => h.imp (fun _ h => ⟨h.1, h.2.1, h.2.2.2.1, h.2.2.2.2.1⟩)))⟩


/-! ## Recording a reading and the two emptiness tests -/

/-- C21. For a sensor of either kind in any state and any reading value, after
`registrarLectura` the sensor has readings, `obtenerNumeroLecturas` is one more
than before, and the history is the previous one followed by the new value as
its last element. -/
theorem registrarLectura_agrega_al_final :
    (∀ (T : Type) (s : SensorTemperatura T) (v : T),
      (s.registrarLectura v).tieneLecturas = true ∧
      (s.registrarLectura v).obtenerNumeroLecturas = s.obtenerNumeroLecturas + 1 ∧
      (s.registrarLectura v).historial.cabeza = s.historial.cabeza ++ [v] ∧
      (s.registrarLectura v).historial.cabeza.getLast? = some v) ∧
    (∀ (s : SensorPresion) (v : Int),
      (s.registrarLectura v).tieneLecturas = true ∧
      (s.registrarLectura v).obtenerNumeroLecturas = s.obtenerNumeroLecturas + 1 ∧
      (s.registrarLectura v).historial.cabeza = s.historial.cabeza ++ [v] ∧
      (s.registrarLectura v).historial.cabeza.getLast? = some v) := by
  have key : ∀ (U : Type) (l : ListaSensor U) (v : U),
      (!(l.insertar v).estaVacia) = true ∧
      (l.insertar v).obtenerTamano = l.obtenerTamano + 1 ∧
      (l.insertar v).cabeza = l.cabeza ++ [v] ∧
      (l.insertar v).cabeza.getLast? = some v := by
    intro U l v
    have hc := insertar_cabeza l v
    refine ⟨?_, insertar_tamano l v, hc, by rw [hc]; simp⟩
    have : (l.insertar v).estaVacia = false :=
      (estaVacia_eq_false_iff _).2 (by rw [hc]; simp)
    simp [this]
  exact ⟨fun T s v => key T s.historial v, fun s v => key Int s.historial v⟩

theorem estaVacia_iff_tamano_cero (l : ListaSensor T) (h : l.Consistente) :
    l.estaVacia = true ↔ l.obtenerTamano = 0 := by
  unfold ListaSensor.Consistente at h
  unfold ListaSensor.obtenerTamano
  rw [estaVacia_eq_true_iff, h]
  constructor
  · intro e
    rw [e]
    rfl
  · intro e
    have : l.cabeza.length = 0 := by exact_mod_cast e
    exact List.length_eq_zero.1 this

theorem tieneLecturas_iff_de_consistente (l : ListaSensor T) (h : l.Consistente) :
    (!l.estaVacia) = true ↔ 0 < l.obtenerTamano := by
  have h1 := estaVacia_iff_tamano_cero l h
  have h2 : 0 ≤ l.obtenerTamano := by
    unfold ListaSensor.Consistente at h
    unfold ListaSensor.obtenerTamano
    rw [h]
    exact Int.natCast_nonneg _
  cases hv : l.estaVacia with
  | true =>
    have := h1.1 hv
    simp
    omega
  | false =>
    have : l.obtenerTamano ≠ 0 := fun e => by
      have := h1.2 e
      rw [hv] at this
      exact absurd this (by decide)
    simp
    omega

theorem procesarLectura_temperatura_historial (ops : Numerico T)
    (s : SensorTemperatura T) :
    (s.procesarLectura ops).2.historial = s.historial ∨
    (s.procesarLectura ops).2.historial = (s.historial.eliminarMinimo ops).2 := by
  unfold SensorTemperatura.procesarLectura
  by_cases h1 : s.historial.estaVacia = true
  · simp [h1]
  · by_cases h2 : s.historial.obtenerTamano = 1
    · simp [h1, h2]
    · by_cases h3 : (s.historial.eliminarMinimo ops).2.estaVacia = true
      · simp [h1, h2, h3]
      · simp [h1, h2, h3]

theorem usoTemperatura_consistente (b : List Char) (ops : Numerico T)
    (p : UsoTemperatura T) : (p.estado b ops).historial.Consistente := by
  induction p with
  | porDefecto => exact consistente_nueva
  | conNombre n => exact consistente_nueva
  | registrarLectura p v ih => exact consistente_insertar _ _ ih
  | procesarLectura p ih =>
    show ((p.estado b ops).procesarLectura ops).2.historial.Consistente
    rcases procesarLectura_temperatura_historial ops (p.estado b ops) with h | h
    · rw [h]; exact ih
    · rw [h]; exact consistente_eliminarMinimo ops _ ih
  | establecerNombre p n ih => exact ih

theorem usoPresion_consistente (b : List Char) (p : UsoPresion) :
    (p.estado b).historial.Consistente := by
  induction p with
  | porDefecto => exact consistente_nueva
  | conNombre n => exact consistente_nueva
  | registrarLectura p v ih => exact consistente_insertar _ _ ih
  | procesarLectura p ih =>
    show (p.estado b).procesarLectura.2.historial.Consistente
    have : (p.estado b).procesarLectura.2 = p.estado b := by
      unfold SensorPresion.procesarLectura
      split_ifs <;> rfl
    rw [this]
    exact ih
  | establecerNombre p n ih => exact ih

/-- C22. After any use of the public interface of a `ListaSensor`, `estaVacia()`
(the test of the head pointer) is true exactly when `obtenerTamaño()` (the stored
counter) is 0; hence after any use of a sensor of either kind `tieneLecturas()`
is true exactly when `obtenerNumeroLecturas()` is positive. -/
theorem estaVacia_sii_tamano_cero :
    (∀ (T : Type) (ops : Numerico T) (p : Uso T),
      (p.estado ops).estaVacia = true ↔ (p.estado ops).obtenerTamano = 0) ∧
    (∀ (T : Type) (ops : Numerico T) (b : List Char) (p : UsoTemperatura T),
      (p.estado b ops).tieneLecturas = true ↔ 0 < (p.estado b ops).obtenerNumeroLecturas) ∧
    (∀ (b : List Char) (p : UsoPresion),
      (p.estado b).tieneLecturas = true ↔ 0 < (p.estado b).obtenerNumeroLecturas) := by
  refine ⟨?_, ?_, ?_⟩
  · intro T ops p
    apply estaVacia_iff_tamano_cero
    induction p with
    | nueva => exact consistente_nueva
    | copia otra _ => exact consistente_copiar _ _ (by simp [ListaSensor.Consistente])
    | insertar p valor ih => exact consistente_insertar _ _ ih
    | eliminar p valor ih => exact consistente_eliminar ops _ _ ih
    | eliminarMinimo p ih => exact consistente_eliminarMinimo ops _ ih
    | limpiar p _ => exact consistente_limpiar _
    | asignar p otra _ _ => exact consistente_copiar _ _ (consistente_limpiar _)
    | autoasignar p ih => exact ih
  · intro T ops b p
    exact tieneLecturas_iff_de_consistente _ (usoTemperatura_consistente b ops p)
  · intro b p
    exact tieneLecturas_iff_de_consistente _ (usoPresion_consistente b p)


/-! ## Repeated extraction of the minimum -/

theorem eliminarMinimoVeces_spec {K : Type} [LinearOrder K] (ops : Numerico T)
    (clave : T → K) (n : Nat) (l : ListaSensor T) (hn : l.cabeza.length = n)
    (hord : ops.OrdenadoPor clave l.cabeza) :
    List.Sorted (fun a b => clave a ≤ clave b) (eliminarMinimoVeces ops n l).1 ∧
    List.Perm (eliminarMinimoVeces ops n l).1 l.cabeza ∧
    (eliminarMinimoVeces ops n l).2.cabeza = [] ∧
    (eliminarMinimoVeces ops n l).2.tamano = l.tamano - n := by
  induction n generalizing l with
  | zero =>
    have hc : l.cabeza = [] := List.length_eq_zero.1 hn
    simp [eliminarMinimoVeces, hc]
  | succ n ih =>
    have hne : l.estaVacia = false :=
      (estaVacia_eq_false_iff l).2 (by intro h; rw [h] at hn; simp at hn)
    obtain ⟨pre, post, hsplit, _, hmin, hres⟩ := eliminarMinimo_ordenado ops clave l hne hord
    have hsub : ∀ x ∈ pre ++ post, x ∈ l.cabeza := by
      intro x hx
      rw [hsplit]
      rcases List.mem_append.1 hx with h | h
      · exact List.mem_append_left _ h
      · exact List.mem_append_right _ (List.mem_cons_of_mem _ h)
    have hlen : (pre ++ post).length = n := by
      rw [hsplit] at hn
      simp at hn
      simp
      omega
    obtain ⟨hs, hp, hv, ht⟩ := ih ⟨pre ++ post, l.tamano - 1⟩ hlen
      (ordenadoPor_subconjunto ops clave l.cabeza (pre ++ post) hord hsub)
    simp only [eliminarMinimoVeces, hres]
    refine ⟨?_, ?_, hv, ?_⟩
    · apply List.sorted_cons.2
      refine ⟨?_, hs⟩
      intro x hx
      exact hmin x (hsub x (hp.subset hx))
    · refine (List.Perm.cons _ hp).trans ?_
      conv_rhs => rw [hsplit]
      exact List.perm_middle.symm
    · rw [ht]
      push_cast
      ring

set_option maxRecDepth 10000 in
/-- C23, counterexample. On the `float` list `[NaN, 1.0]` of length 2, two calls
of `eliminarMinimo` in a row both return NaN: the element `1.0` is never
returned, and the list is not empty afterwards but still `[NaN, 1.0]`. -/
theorem eliminarMinimoVeces_con_nan :
    (ListaSensor.deLecturas [Flotante.nan, Flotante.deEntero 1]).cabeza.length = 2 ∧
    (eliminarMinimoVeces flotante32 2
      (ListaSensor.deLecturas [Flotante.nan, Flotante.deEntero 1])).1
      = [Flotante.nan, Flotante.nan] ∧
    Flotante.deEntero 1 ∉ (eliminarMinimoVeces flotante32 2
      (ListaSensor.deLecturas [Flotante.nan, Flotante.deEntero 1])).1 ∧
    (eliminarMinimoVeces flotante32 2
      (ListaSensor.deLecturas [Flotante.nan, Flotante.deEntero 1])).2
      = ListaSensor.deLecturas [Flotante.nan, Flotante.deEntero 1] ∧
    (eliminarMinimoVeces flotante32 2
      (ListaSensor.deLecturas [Flotante.nan, Flotante.deEntero 1])).2.estaVacia = false := by
  decide

/-- C23, amended. For a list of length n on whose elements `==` and `<` are the
comparisons of a total order (every list of `int`; a list of `float` without
NaN), calling `eliminarMinimo` n times in a row returns the elements in
non-decreasing order (each returned value is less than or equal to every later
one), the returned values being a permutation of the list, and leaves the list
empty, with count 0 when the count was the number of elements. -/
theorem eliminarMinimoVeces_ordena {K : Type} [LinearOrder K] (ops : Numerico T)
    (clave : T → K) (l : ListaSensor T) (hord : ops.OrdenadoPor clave l.cabeza) :
    List.Sorted (fun a b => ops.menor a b = true ∨ ops.igual a b = true)
      (eliminarMinimoVeces ops l.cabeza.length l).1 ∧
    List.Sorted (fun a b => clave a ≤ clave b)
      (eliminarMinimoVeces ops l.cabeza.length l).1 ∧
    List.Perm (eliminarMinimoVeces ops l.cabeza.length l).1 l.cabeza ∧
    (eliminarMinimoVeces ops l.cabeza.length l).2.cabeza = [] ∧
    (eliminarMinimoVeces ops l.cabeza.length l).2.estaVacia = true ∧
    (l.Consistente → (eliminarMinimoVeces ops l.cabeza.length l).2.obtenerTamano = 0) := by
  obtain ⟨hs, hp, hv, ht⟩ := eliminarMinimoVeces_spec ops clave l.cabeza.length l rfl hord
  refine ⟨?_, hs, hp, hv, (estaVacia_eq_true_iff _).2 hv, ?_⟩
  · refine List.Pairwise.imp_of_mem ?_ hs
    intro a b ha hb hab
    have hal := hp.subset ha
    have hbl := hp.subset hb
    rcases lt_or_eq_of_le hab with h | h
    · exact Or.inl ((hord a hal b hbl).2.2 h)
    · exact Or.inr ((hord a hal b hbl).1.2 h)
  · intro hcons
    unfold ListaSensor.Consistente at hcons
    unfold ListaSensor.obtenerTamano
    rw [ht, hcons]
    simp

/-- Witness for C23 as amended on the `int` list `[3, 1, 2, 1, 5]`. -/
theorem eliminarMinimoVeces_ordena_witness :
    entero32.OrdenadoPor id (ListaSensor.deLecturas [3, 1, 2, 1, 5] : ListaSensor Int).cabeza ∧
    (ListaSensor.deLecturas [3, 1, 2, 1, 5] : ListaSensor Int).Consistente ∧
    (eliminarMinimoVeces entero32 5 (ListaSensor.deLecturas [3, 1, 2, 1, 5])).1
      = [1, 1, 2, 3, 5] ∧
    (eliminarMinimoVeces entero32
      (ListaSensor.deLecturas [3, 1, 2, 1, 5] : ListaSensor Int).cabeza.length
      (ListaSensor.deLecturas [3, 1, 2, 1, 5])).2.obtenerTamano = 0 :=
  ⟨entero32_ordenado _, by decide, by decide,
    (eliminarMinimoVeces_ordena entero32 id (ListaSensor.deLecturas [3, 1, 2, 1, 5])
      (entero32_ordenado _)).2.2.2.2.2 (by decide)⟩

/-! ## Repeated processing of a temperature sensor -/

/-- A non-empty list has an element of greatest position. -/
theorem existe_maximo {K : Type} [LinearOrder K] (clave : T → K) (S : List T) (h : S ≠ []) :
    ∃ M ∈ S, ∀ x ∈ S, clave x ≤ clave M := by
  induction S with
  | nil => exact absurd rfl h
  | cons d resto ih =>
    by_cases hr : resto = []
    · subst hr
      exact ⟨d, List.mem_cons_self _ _, by simp⟩
    · obtain ⟨M, hM, hmax⟩ := ih hr
      by_cases hd : clave d ≤ clave M
      · refine ⟨M, List.mem_cons_of_mem _ hM, ?_⟩
        intro x hx
        rcases List.mem_cons.1 hx with h1 | h1
        · exact h1 ▸ hd
        · exact hmax x h1
      · refine ⟨d, List.mem_cons_self _ _, ?_⟩
        intro x hx
        rcases List.mem_cons.1 hx with h1 | h1
        · exact h1 ▸ le_refl _
        · exact le_trans (hmax x h1) (le_of_lt (not_le.1 hd))

theorem suma_cota_inferior (S : List Int) (lo : Int) (h : ∀ x ∈ S, lo ≤ x) :
    lo * S.length ≤ S.sum := by
  induction S with
  | nil => simp
  | cons d resto ih =>
    have h1 := h d (List.mem_cons_self _ _)
    have h2 := ih (fun x hx => h x (List.mem_cons_of_mem _ hx))
    simp only [List.sum_cons, List.length_cons]
    push_cast
    linarith

theorem suma_cota_superior (S : List Int) (hi : Int) (h : ∀ x ∈ S, x ≤ hi) :
    S.sum ≤ hi * S.length := by
  induction S with
  | nil => simp
  | cons d resto ih =>
    have h1 := h d (List.mem_cons_self _ _)
    have h2 := ih (fun x hx => h x (List.mem_cons_of_mem _ hx))
    simp only [List.sum_cons, List.length_cons]
    push_cast
    linarith

/-- The quotient truncated toward zero of a sum between `lo * n` and `hi * n` by
`n > 0` lies between `lo` and `hi`. -/
theorem tdiv_entre_cotas (x n lo hi : Int) (hn : 0 < n) (h1 : lo * n ≤ x)
    (h2 : x ≤ hi * n) : lo ≤ Int.tdiv x n ∧ Int.tdiv x n ≤ hi := by
  rcases le_or_lt 0 x with h0 | h0
  · rw [Int.tdiv_eq_ediv h0 (le_of_lt hn)]
    have hq0 : 0 ≤ x / n := Int.ediv_nonneg h0 (le_of_lt hn)
    constructor
    · exact Int.le_ediv_of_mul_le hn h1
    · have hhi : 0 ≤ hi := by
        by_contra hneg
        have : hi * n < 0 := mul_neg_of_neg_of_pos (not_le.1 hneg) hn
        omega
      rcases lt_or_le (x / n) (hi + 1) with h | h
      · omega
      · exfalso
        have hmul : (hi + 1) * n ≤ (x / n) * n := Int.mul_le_mul_of_nonneg_right h (le_of_lt hn)
        have hle : (x / n) * n ≤ x := Int.ediv_mul_le x (ne_of_gt hn)
        have : (hi + 1) * n = hi * n + n := by ring
        omega
  · have hneg : Int.tdiv x n = -(Int.tdiv (-x) n) := by
      rw [Int.neg_tdiv]; simp
    rw [hneg, Int.tdiv_eq_ediv (by omega) (le_of_lt hn)]
    have hq0 : 0 ≤ (-x) / n := Int.ediv_nonneg (by omega) (le_of_lt hn)
    constructor
    · have hlo : lo ≤ 0 := by
        by_contra hpos
        have : 0 < lo * n := mul_pos (not_le.1 hpos) hn
        omega
      rcases lt_or_le ((-x) / n) (-lo + 1) with h | h
      · omega
      · exfalso
        have hmul : (-lo + 1) * n ≤ ((-x) / n) * n :=
          Int.mul_le_mul_of_nonneg_right h (le_of_lt hn)
        have hle : ((-x) / n) * n ≤ -x := Int.ediv_mul_le (-x) (ne_of_gt hn)
        have : (-lo + 1) * n = -(lo * n) + n := by ring
        omega
    · have : (-hi) ≤ (-x) / n := by
        apply Int.le_ediv_of_mul_le hn
        have : -hi * n = -(hi * n) := by ring
        omega
      omega

/-- A non-empty list of integers has a least element. -/
theorem existe_minimo (S : List Int) (h : S ≠ []) :
    ∃ mn ∈ S, ∀ x ∈ S, mn ≤ x := by
  obtain ⟨mn, hmn, hmin⟩ := existe_maximo (fun x : Int => -x) S h
  exact ⟨mn, hmn, fun x hx => neg_le_neg_iff.1 (hmin x hx)⟩

/-- C25. For a non-empty `ListaSensor<int>` whose count is its number of elements
and whose running sum stays in the 32-bit signed range, the value returned by
`calcularPromedio` is at least the smallest element and at most the largest
element of the list. -/
theorem calcularPromedio_entre_minimo_y_maximo (l : ListaSensor Int)
    (hne : l.estaVacia = false) (hcons : l.Consistente)
    (hr : sumaEnRango 0 l.cabeza = true) :
    ∃ mn ∈ l.cabeza, ∃ mx ∈ l.cabeza, (∀ x ∈ l.cabeza, mn ≤ x ∧ x ≤ mx) ∧
      mn ≤ l.calcularPromedio entero32 ∧ l.calcularPromedio entero32 ≤ mx := by
  have hnil : l.cabeza ≠ [] := (estaVacia_eq_false_iff l).1 hne
  obtain ⟨mn, hmn, hmin⟩ := existe_minimo l.cabeza hnil
  obtain ⟨mx, hmx, hmax⟩ := existe_maximo (fun x : Int => x) l.cabeza hnil
  have hpos : (0 : Int) < l.cabeza.length := by
    have := List.length_pos.2 hnil
    exact_mod_cast this
  have hb := tdiv_entre_cotas l.cabeza.sum l.cabeza.length mn mx hpos
    (suma_cota_inferior _ _ hmin) (suma_cota_superior _ _ hmax)
  rw [calcularPromedio_entero32 l hne hcons hr]
  exact ⟨mn, hmn, mx, hmx, fun x hx => ⟨hmin x hx, hmax x hx⟩, hb.1, hb.2⟩

/-- Witness for C25 on the `int` list `[3, -4, -4, -4]`: the average is `-2`,
between `-4` and `3`. -/
theorem calcularPromedio_entre_minimo_y_maximo_witness :
    (ListaSensor.deLecturas [3, -4, -4, -4] : ListaSensor Int).estaVacia = false ∧
    (ListaSensor.deLecturas [3, -4, -4, -4] : ListaSensor Int).Consistente ∧
    sumaEnRango 0 (ListaSensor.deLecturas [3, -4, -4, -4] : ListaSensor Int).cabeza = true ∧
    (ListaSensor.deLecturas [3, -4, -4, -4]).calcularPromedio entero32 = -2 ∧
    ∃ mn ∈ (ListaSensor.deLecturas [3, -4, -4, -4] : ListaSensor Int).cabeza,
      ∃ mx ∈ (ListaSensor.deLecturas [3, -4, -4, -4] : ListaSensor Int).cabeza,
        (∀ x ∈ (ListaSensor.deLecturas [3, -4, -4, -4] : ListaSensor Int).cabeza,
          mn ≤ x ∧ x ≤ mx) ∧
        mn ≤ (ListaSensor.deLecturas [3, -4, -4, -4]).calcularPromedio entero32 ∧
        (ListaSensor.deLecturas [3, -4, -4, -4]).calcularPromedio entero32 ≤ mx :=
  ⟨by decide, by decide, by decide, by decide,
    calcularPromedio_entre_minimo_y_maximo (ListaSensor.deLecturas [3, -4, -4, -4])
      (by decide) (by decide) (by decide)⟩

end Sensores
